import Mathlib

/-!
Command instances of buffet: lifecycle and construction.

A shallow embedding of `buffet/commands/command_instance.cc`.

The C++ object graph is flattened into explicit state: a `World` holds the
fields of the `CommandInstance` a method runs on (`*this`), the `CommandQueue`
its `queue_` pointer refers to, and the calls its `proxy_` has received.
Methods are functions `World → World` (paired with the return value for the
`bool` method).
-/

namespace buffet

/-! ## Typed values (`native_types::Object`) -/

/-- Modelled from the spec: `PropValue` (prop_values.h is not among the
sources).  Spec §3: a typed value is a tagged union over Integer, Number,
Boolean, String, Object and Array; an Object maps string keys to typed
values.  A Number is carried as a rational. -/
inductive PropValue where
  | integer (v : Int)
  | number (v : Rat)
  | boolean (v : Bool)
  | string (v : String)
  | object (fields : List (String × PropValue))
  | array (items : List PropValue)

/-- The `native_types::Object` of the source: property name ↦ typed value. -/
abbrev Object := List (String × PropValue)

/-! ## Status strings (command_instance.cc lines 20–27) -/

def kStatusQueued : String := "queued"
def kStatusInProgress : String := "inProgress"
def kStatusPaused : String := "paused"
def kStatusError : String := "error"
def kStatusDone : String := "done"
def kStatusCanceled : String := "canceled"
def kStatusAborted : String := "aborted"
def kStatusExpired : String := "expired"

/-- Spec §4.3: `done`, `error`, `canceled`, `aborted` and `expired` are the
terminal statuses.  (The source has no such predicate; it is used only to
state the claims.) -/
def isTerminal (status : String) : Bool :=
  status == kStatusDone || status == kStatusError || status == kStatusCanceled ||
    status == kStatusAborted || status == kStatusExpired

/-! ## The command queue -/

/-- A `CommandInstance*`: the queue owns instances and hands out references. -/
abbrev InstanceHandle := Nat

/-- Modelled from the spec: `CommandQueue` (command_queue.h/.cc are not among
the sources).  Spec §3/§4.4: the queue owns the live instances keyed by
identifier, without duplicate keys, in insertion order. -/
structure CommandQueue where
  map_ : List (String × InstanceHandle)
deriving DecidableEq, Repr

/-- Modelled from the spec: `CommandQueue::Find`.  Spec §4.4:
`Find(id) -> Option<&Instance>`, a read-only lookup. -/
def CommandQueue.Find (q : CommandQueue) (id : String) : Option InstanceHandle :=
  (q.map_.find? (fun e => e.1 == id)).map Prod.snd

/-- Modelled from the spec: `CommandQueue::Add`.  Spec §4.4: inserts into the
live set and fails only if the identifier already exists. -/
def CommandQueue.Add (q : CommandQueue) (id : String) (h : InstanceHandle) :
    Option CommandQueue :=
  if (q.Find id).isSome then none else some ⟨q.map_ ++ [(id, h)]⟩

/-- Modelled from the spec: `CommandQueue::Remove`.  Spec §4.4:
`Remove(id) -> Option<OwnedInstance>` detaches the instance from the live set
and hands it to the caller; it returns none if `id` is absent. -/
def CommandQueue.Remove (q : CommandQueue) (id : String) :
    Option InstanceHandle × CommandQueue :=
  (q.Find id, ⟨q.map_.filter (fun e => !(e.1 == id))⟩)

/-! ## The command instance -/

/-- The data members of `CommandInstance`.  `name_`, `category_` and
`parameters_` are the ones the constructor (lines 29–33) initialises; the
others are declared in command_instance.h, which is not among the sources: the
methods below read and write `status_`, `progress_`, `proxy_` and `queue_`,
`GetID()` reads `id_`, and `results_` is the result object of spec §3.
`proxy_` and `queue_` are pointers; only whether they are null matters to the
methods, the pointees live in `World`. -/
structure CommandInstance where
  id_ : String
  name_ : String
  category_ : String
  parameters_ : Object
  results_ : Object
  status_ : String
  progress_ : Int
  proxy_ : Bool
  queue_ : Bool

/-- A call received by the `CommandProxyInterface` the instance points at. -/
inductive Notification where
  | OnStatusChanged (status : String)
  | OnProgressChanged (progress : Int)
deriving DecidableEq, Repr

/-- The state a `CommandInstance` method runs in: the instance itself, the
queue behind `queue_` and the calls delivered to the proxy behind `proxy_`,
oldest first. -/
structure World where
  self : CommandInstance
  queue : CommandQueue
  calls : List Notification

/-- Method `CommandInstance::SetStatus` (lines 165–171). -/
def SetStatus (status : String) (w : World) : World :=
  if status ≠ w.self.status_ then
    let w1 : World := { w with self := { w.self with status_ := status } }
    if w1.self.proxy_ then
      { w1 with calls := w1.calls ++ [Notification.OnStatusChanged w1.self.status_] }
    else w1
  else w

/-- Method `CommandInstance::SetProgress` (lines 134–144). -/
def SetProgress (progress : Int) (w : World) : Bool × World :=
  if progress < 0 ∨ progress > 100 then (false, w)
  else
    if progress ≠ w.self.progress_ then
      let w1 : World := { w with self := { w.self with progress_ := progress } }
      let w2 := SetStatus kStatusInProgress w1
      if w2.self.proxy_ then
        (true, { w2 with calls := w2.calls ++ [Notification.OnProgressChanged w2.self.progress_] })
      else (true, w2)
    else (true, w)

/-- Method `CommandInstance::RemoveFromQueue` (lines 173–180).  The instance the queue
hands back is held until the end of the method and then released; the world
keeps the field values it had at that point. -/
def RemoveFromQueue (w : World) : World :=
  if w.self.queue_ then
    { w with queue := (w.queue.Remove w.self.id_).2 }
  else w

/-- Method `CommandInstance::Abort` (lines 146–150). -/
def Abort (w : World) : World :=
  RemoveFromQueue (SetStatus kStatusAborted w)

/-- Method `CommandInstance::Cancel` (lines 152–156). -/
def Cancel (w : World) : World :=
  RemoveFromQueue (SetStatus kStatusCanceled w)

/-- Method `CommandInstance::Done` (lines 158–163); the result of `SetProgress(100)`
is discarded. -/
def Done (w : World) : World :=
  RemoveFromQueue (SetStatus kStatusDone (SetProgress 100 w).2)

/-! ## Call sequences and observations -/

/-- The terminal-transition methods of `CommandInstance`. -/
inductive TerminalCall where
  | abort
  | cancel
  | done
deriving DecidableEq, Repr

/-- Run the method a `TerminalCall` names. -/
def TerminalCall.run : TerminalCall → World → World
  | .abort => Abort
  | .cancel => Cancel
  | .done => Done

/-- A sequence of `SetProgress` calls, first element first; return values are
discarded. -/
def runSetProgress : List Int → World → World
  | [], w => w
  | p :: ps, w => runSetProgress ps (SetProgress p w).2

/-- The arguments of the `OnStatusChanged` calls in a call list, in order. -/
def statusCalls : List Notification → List String
  | [] => []
  | Notification.OnStatusChanged s :: cs => s :: statusCalls cs
  | Notification.OnProgressChanged _ :: cs => statusCalls cs

/-- The arguments of the `OnProgressChanged` calls in a call list, in order. -/
def progressCalls : List Notification → List Int
  | [] => []
  | Notification.OnStatusChanged _ :: cs => progressCalls cs
  | Notification.OnProgressChanged p :: cs => p :: progressCalls cs

/-! ## JSON values and error chains (library types the source uses) -/

/-- The `base::Value` tree `FromJson` receives. -/
inductive Value where
  | null
  | boolean (b : Bool)
  | integer (i : Int)
  | double (d : Rat)
  | string (s : String)
  | binary (bytes : List Nat)
  | dictionary (entries : List (String × Value))
  | list (items : List Value)

/-- The contents of a `base::DictionaryValue`: key ↦ value. -/
abbrev DictionaryValue := List (String × Value)

/-- Library function `base::Value::GetAsDictionary`: succeeds on a dictionary only. -/
def Value.GetAsDictionary : Value → Option DictionaryValue
  | .dictionary entries => some entries
  | _ => none

/-- Library function `base::Value::GetAsString`: succeeds on a string only. -/
def Value.GetAsString : Value → Option String
  | .string s => some s
  | _ => none

/-- Library function `DictionaryValue::GetWithoutPathExpansion`: the value stored under `key`. -/
def GetWithoutPathExpansion (json : DictionaryValue) (key : String) : Option Value :=
  (json.find? (fun e => e.1 == key)).map Prod.snd

/-- Library function `DictionaryValue::GetStringWithoutPathExpansion`: the string stored under
`key`; fails when the key is absent or holds a non-string. -/
def GetStringWithoutPathExpansion (json : DictionaryValue) (key : String) : Option String :=
  match GetWithoutPathExpansion json key with
  | some v => v.GetAsString
  | none => none

/-- One `chromeos::Error`: domain, code and message. -/
structure Error where
  domain : String
  code : String
  message : String
deriving DecidableEq, Repr

/-- The chain behind a `chromeos::ErrorPtr`, outermost error first; the empty
chain is the null `ErrorPtr`. -/
abbrev ErrorPtr := List Error

/-- Library function `chromeos::Error::AddTo`: the new error becomes the outermost one and
keeps the previous chain as its inner error. -/
def Error.AddTo (error : ErrorPtr) (domain code message : String) : ErrorPtr :=
  { domain := domain, code := code, message := message } :: error

/-! ## Constants from headers that are not among the sources -/

/-- Modelled from the spec: `commands::attributes::kCommand_Name`
(schema_constants.h); spec §6 names the request field `name`. -/
def kCommand_Name : String := "name"

/-- Modelled from the spec: `commands::attributes::kCommand_Parameters`
(schema_constants.h); spec §6 names the request field `parameters`. -/
def kCommand_Parameters : String := "parameters"

/-- Modelled from the spec: `chromeos::errors::json::kDomain`; spec §6 gives
the domain tag `json`. -/
def json_kDomain : String := "json"

/-- Modelled from the spec: `chromeos::errors::json::kObjectExpected`; spec §6
gives the code `objectExpected`. -/
def json_kObjectExpected : String := "objectExpected"

/-- Modelled from the spec: `errors::commands::kDomain` (schema_constants.h);
spec §6 gives the domain tag `command`. -/
def commands_kDomain : String := "command"

/-- Modelled from the spec: `errors::commands::kPropertyMissing`; spec §6 gives
the code `propertyMissing`. -/
def kPropertyMissing : String := "propertyMissing"

/-- Modelled from the spec: `errors::commands::kInvalidCommandName`; spec §6
gives the code `invalidCommandName`. -/
def kInvalidCommandName : String := "invalidCommandName"

/-- Modelled from the spec: `errors::commands::kCommandFailed`; spec §6 gives
the code `commandFailed`. -/
def kCommandFailed : String := "commandFailed"

/-! ## Schemas and validation -/

/-- Modelled from the spec: the schema tree (prop_types.h and object_schema.h
are not among the sources).  Spec §3: a scalar kind carries its constraints
(minimum/maximum, one-of enumeration, default value); an Object kind maps each
property name to its schema and required flag; an Array kind has one element
schema and optional length bounds. -/
inductive Schema where
  | integer (minimum maximum : Option Int) (choices : Option (List Int)) (default : Option Int)
  | number (minimum maximum : Option Rat) (choices : Option (List Rat)) (default : Option Rat)
  | boolean (default : Option Bool)
  | string (choices : Option (List String)) (default : Option String)
  | object (props : List (String × Schema × Bool))
  | array (element : Schema) (minLength maxLength : Option Nat)

/-- Modelled from the spec: `ObjectSchema`, the Object kind of spec §3:
property name ↦ (schema, required flag), in declaration order. -/
abbrev ObjectSchema := List (String × Schema × Bool)

/-- Modelled from the spec: the default value a scalar schema may carry
(spec §3), as a typed value. -/
def Schema.defaultValue : Schema → Option PropValue
  | .integer _ _ _ d => d.map PropValue.integer
  | .number _ _ _ d => d.map PropValue.number
  | .boolean d => d.map PropValue.boolean
  | .string _ d => d.map PropValue.string
  | .object _ => none
  | .array _ _ _ => none

/-- Modelled from the spec: a `SchemaError` (spec §7): its kind as the code and
the property path it always carries as the message. -/
def schemaError (code path : String) : Error :=
  { domain := commands_kDomain, code := code, message := path }

/-- Modelled from the spec: the min/max constraint of spec §4.1, inclusive at
both ends; an unset bound does not constrain. -/
def inRange {α : Type} [LE α] [DecidableRel (fun a b : α => a ≤ b)]
    (lo hi : Option α) (v : α) : Bool :=
  (match lo with
    | some m => decide (m ≤ v)
    | none => true) &&
  (match hi with
    | some m => decide (v ≤ m)
    | none => true)

/-- Modelled from the spec: the one-of constraint of spec §4.1: the value must
equal one of the configured choices, when there are any. -/
def inChoices {α : Type} [DecidableEq α] (choices : Option (List α)) (v : α) : Bool :=
  match choices with
  | some cs => decide (v ∈ cs)
  | none => true

/-- Modelled from the spec: the dotted property path of spec §4.1
(`parent.child.value`). -/
def childPath (path name : String) : String :=
  if path = "" then name else path ++ "." ++ name

/-- Modelled from the spec: the leftmost document property the schema does not
declare (spec §4.1: the model is closed). -/
def firstUnknown (props : ObjectSchema) : DictionaryValue → Option String
  | [] => none
  | (k, _) :: rest =>
    if props.any (fun p => p.1 == k) then firstUnknown props rest else some k

mutual
/-- Modelled from the spec: `Validate(schema, document)` of spec §4.1
(schema_utils.cc and prop_types.cc are not among the sources).  Kind mismatch
fails with `TypeMismatch`, integers being accepted where a number is expected;
scalar constraints are checked once the kind matches and fail with
`ConstraintViolation`; objects and arrays recurse, the first failure aborting
the traversal; a present property the schema does not declare fails with
`UnknownProperty`. -/
def Validate (path : String) : Schema → Value → Except Error PropValue
  | .integer lo hi cs _, .integer i =>
    if inRange lo hi i && inChoices cs i then .ok (.integer i)
    else .error (schemaError "ConstraintViolation" path)
  | .number lo hi cs _, .integer i =>
    if inRange lo hi (i : Rat) && inChoices cs (i : Rat) then .ok (.number i)
    else .error (schemaError "ConstraintViolation" path)
  | .number lo hi cs _, .double d =>
    if inRange lo hi d && inChoices cs d then .ok (.number d)
    else .error (schemaError "ConstraintViolation" path)
  | .boolean _, .boolean b => .ok (.boolean b)
  | .string cs _, .string s =>
    if inChoices cs s then .ok (.string s)
    else .error (schemaError "ConstraintViolation" path)
  | .object props, .dictionary d =>
    match ValidateProps path props d with
    | .error e => .error e
    | .ok obj =>
      match firstUnknown props d with
      | some k => .error (schemaError "UnknownProperty" (childPath path k))
      | none => .ok (.object obj)
  | .array elem lo hi, .list items =>
    match items.mapM (Validate path elem) with
    | .error e => .error e
    | .ok vs =>
      if inRange lo hi vs.length then .ok (.array vs)
      else .error (schemaError "ConstraintViolation" path)
  | _, _ => .error (schemaError "TypeMismatch" path)
/-- Modelled from the spec: the declared properties of an object schema, in
declaration order (spec §4.1): a present property is validated against its
schema; a missing required property fails with `MissingProperty`; a missing
optional one is filled from the schema's default value if there is one and
omitted otherwise. -/
def ValidateProps (path : String) :
    List (String × Schema × Bool) → DictionaryValue → Except Error Object
  | [], _ => .ok []
  | (name, schema, required) :: rest, d =>
    match GetWithoutPathExpansion d name with
    | some v =>
      match Validate (childPath path name) schema v with
      | .error e => .error e
      | .ok tv =>
        match ValidateProps path rest d with
        | .error e => .error e
        | .ok obj => .ok ((name, tv) :: obj)
    | none =>
      if required then .error (schemaError "MissingProperty" (childPath path name))
      else
        match ValidateProps path rest d with
        | .error e => .error e
        | .ok obj =>
          match schema.defaultValue with
          | some dv => .ok ((name, dv) :: obj)
          | none => .ok obj
end

/-- Modelled from the spec: `TypedValueFromJson` (schema_utils.cc is not among
the sources): spec §4.1 `Validate(schema, document)` at the top level, where
the schema is an object schema and the document a dictionary; the result is
the typed object or the validation error. -/
def TypedValueFromJson (params : DictionaryValue) (schema : ObjectSchema) :
    Except Error Object :=
  match ValidateProps "" schema params with
  | .error e => .error e
  | .ok obj =>
    match firstUnknown schema params with
    | some k => .error (schemaError "UnknownProperty" (childPath "" k))
    | none => .ok obj

/-! ## Command definitions and the dictionary -/

/-- Modelled from the spec: `CommandDefinition` (command_definition.h is not
among the sources).  Spec §3: category, parameter schema and result schema. -/
structure CommandDefinition where
  category_ : String
  parameters_ : ObjectSchema
  results_ : ObjectSchema

/-- Modelled from the spec: `CommandDefinition::GetCategory`, the category of
spec §3. -/
def CommandDefinition.GetCategory (d : CommandDefinition) : String := d.category_

/-- Modelled from the spec: `CommandDefinition::GetParameters`, the parameter
schema of spec §3. -/
def CommandDefinition.GetParameters (d : CommandDefinition) : ObjectSchema := d.parameters_

/-- Modelled from the spec: `CommandDictionary` (command_dictionary.h/.cc are
not among the sources).  Spec §3: a mapping command name ↦ definition. -/
structure CommandDictionary where
  definitions_ : List (String × CommandDefinition)

/-- Modelled from the spec: `CommandDictionary::FindCommand`.  Spec §4.2:
`FindCommand(name) -> Option<&Definition>`, a read-only lookup. -/
def CommandDictionary.FindCommand (dictionary : CommandDictionary) (name : String) :
    Option CommandDefinition :=
  (dictionary.definitions_.find? (fun e => e.1 == name)).map Prod.snd

/-! ## Creating an instance from a request -/

/-- Modelled from the spec: the shape of `TypedValueFromJson` (schema_utils.h
is not among the sources) as `GetCommandParameters` calls it.  Spec §4.1:
`Validate(schema, document) -> Result<TypedValue, ValidationError>`, a pure
function: a dictionary and an object schema in, the typed object or the
validation error out. -/
abbrev Validator := DictionaryValue → ObjectSchema → Except Error Object

/-- The constructor `CommandInstance::CommandInstance` (lines 29–33) sets
`name_`, `category_` and `parameters_`.  Modelled from the spec: the initial
values of the other members, which command_instance.h (not among the sources)
declares: status "queued" (spec §4.3, the initial state), progress 0, empty
results (spec §3), no id yet, no proxy and no queue. -/
def CommandInstance.CommandInstance (name category : String) (parameters : Object) :
    CommandInstance :=
  { id_ := "", name_ := name, category_ := category, parameters_ := parameters,
    results_ := [], status_ := kStatusQueued, progress_ := 0,
    proxy_ := false, queue_ := false }

/-- Helper `GetCommandParameters` (lines 52–82).  `some` is the `true` return with
the validated `parameters`; `none` is `false`.  First `params` is found: the
"parameters" property when it is an object, the empty `no_params` when the
property is absent, and an error when it is present and not an object.  Then
`params` is validated; the validator `V` stands for `TypedValueFromJson`, and
its error, if any, is put on the chain. -/
def GetCommandParameters (V : Validator) (json : DictionaryValue)
    (command_def : CommandDefinition) (error : ErrorPtr) : Option Object × ErrorPtr :=
  let no_params : DictionaryValue := []
  let params : Option DictionaryValue :=
    match GetWithoutPathExpansion json kCommand_Parameters with
    | some params_value => params_value.GetAsDictionary
    | none => some no_params
  match params with
  | none =>
    (none, Error.AddTo error json_kDomain json_kObjectExpected
      ("Property '" ++ kCommand_Parameters ++ "' must be a JSON object"))
  | some params =>
    match V params command_def.GetParameters with
    | .ok parameters => (some parameters, error)
    | .error e => (none, e :: error)

/-- Method `CommandInstance::FromJson` (lines 86–132): the instance, if one was
created, and the error chain the call leaves behind. -/
def FromJson (V : Validator) (value : Value) (dictionary : CommandDictionary)
    (error : ErrorPtr) : Option CommandInstance × ErrorPtr :=
  match value.GetAsDictionary with
  | none =>
    (none, Error.AddTo error json_kDomain json_kObjectExpected
      "Command instance is not a JSON object")
  | some json =>
    match GetStringWithoutPathExpansion json kCommand_Name with
    | none =>
      (none, Error.AddTo error commands_kDomain kPropertyMissing "Command name is missing")
    | some command_name =>
      match dictionary.FindCommand command_name with
      | none =>
        (none, Error.AddTo error commands_kDomain kInvalidCommandName
          ("Unknown command received: " ++ command_name))
      | some command_def =>
        match GetCommandParameters V json command_def error with
        | (none, error1) =>
          (none, Error.AddTo error1 commands_kDomain kCommandFailed
            ("Failed to validate command '" ++ command_name ++ "'"))
        | (some parameters, error1) =>
          (some (CommandInstance.CommandInstance command_name command_def.GetCategory
            parameters), error1)

/-! ## The D-Bus proxy (dbus_command_proxy.cc) -/

/-- Modelled from the spec: `IntPropType` with its min/max constraint
(prop_types.h and prop_constraints.h are not among the sources).  Spec §3: an
integer schema carries an optional minimum and maximum. -/
structure IntPropType where
  minimum : Option Int
  maximum : Option Int
deriving DecidableEq, Repr

/-- Modelled from the spec: a default-constructed `IntPropType` has no
constraint. -/
def IntPropType.default : IntPropType := ⟨none, none⟩

/-- Modelled from the spec: `IntPropType::AddMinMaxConstraint` sets both
bounds. -/
def IntPropType.AddMinMaxConstraint (_t : IntPropType) (min_value max_value : Int) :
    IntPropType :=
  ⟨some min_value, some max_value⟩

/-- Modelled from the spec: `IntPropType::ValidateValue`.  Spec §4.1: a numeric
value must lie within the configured min/max, inclusive; a violation fails
with `ConstraintViolation`. -/
def IntPropType.ValidateValue (t : IntPropType) (value : Int) : Except Error Unit :=
  if inRange t.minimum t.maximum value then .ok ()
  else .error (schemaError "ConstraintViolation" "")

/-- Modelled from the spec: `CommandDefinition::GetResults`, the result schema
of spec §3. -/
def CommandDefinition.GetResults (d : CommandDefinition) : ObjectSchema := d.results_

/-- Method `DBusCommandProxy::SetProgress` (lines 61–75), run in the world of
the instance `command_instance_` points at: the return value, the error chain
and the world it leaves.  The log line is not modelled. -/
def DBusCommandProxy.SetProgress (error : ErrorPtr) (progress : Int) (w : World) :
    Bool × ErrorPtr × World :=
  let progress_type := IntPropType.default.AddMinMaxConstraint 0 100
  match progress_type.ValidateValue progress with
  | .error e => (false, e :: error, w)
  | .ok _ => (true, error, (buffet.SetProgress progress w).2)

/-- Method `DBusCommandProxy::SetResults` (lines 77–89).  Three things it uses
are not among the sources and are parameters: the conversion-and-validation
`ObjectFromDBusVariant` (a typed object or an error, as `Validator`), the
method `CommandInstance::SetResults`, and the definition
`GetCommandDefinition()` returns.  The log line is not modelled. -/
def DBusCommandProxy.SetResults {VariantDictionary : Type}
    (ObjectFromDBusVariant : ObjectSchema → VariantDictionary → Except Error Object)
    (CommandInstance_SetResults : Object → World → World)
    (command_definition : CommandDefinition)
    (error : ErrorPtr) (results : VariantDictionary) (w : World) :
    Bool × ErrorPtr × World :=
  let results_schema := command_definition.GetResults
  match ObjectFromDBusVariant results_schema results with
  | .error e => (false, e :: error, w)
  | .ok obj => (true, error, CommandInstance_SetResults obj w)

/-! ## Methods with their steps recorded -/

/-- One step of a method that an observer can order: a write to a data member
or a call delivered to the proxy. -/
inductive Step where
  | write_progress (value : Int)
  | write_status (value : String)
  | call (n : Notification)
deriving DecidableEq, Repr

/-- A world together with the steps taken so far, oldest first. -/
structure Traced where
  world : World
  steps : List Step

/-- Method `CommandInstance::SetStatus` (lines 165–171), recording each step:
the assignment to `status_` (line 167), then the proxy call (line 169). -/
def SetStatusT (status : String) (t : Traced) : Traced :=
  if status ≠ t.world.self.status_ then
    let t1 : Traced :=
      { world := { t.world with self := { t.world.self with status_ := status } },
        steps := t.steps ++ [Step.write_status status] }
    if t1.world.self.proxy_ then
      { world := { t1.world with
          calls := t1.world.calls ++ [Notification.OnStatusChanged t1.world.self.status_] },
        steps := t1.steps ++ [Step.call (Notification.OnStatusChanged t1.world.self.status_)] }
    else t1
  else t

/-- Method `CommandInstance::SetProgress` (lines 134–144), recording each step:
the assignment to `progress_` (line 138), the steps of `SetStatus` (line 139),
then the proxy call (line 141). -/
def SetProgressT (progress : Int) (t : Traced) : Bool × Traced :=
  if progress < 0 ∨ progress > 100 then (false, t)
  else
    if progress ≠ t.world.self.progress_ then
      let t1 : Traced :=
        { world := { t.world with self := { t.world.self with progress_ := progress } },
          steps := t.steps ++ [Step.write_progress progress] }
      let t2 := SetStatusT kStatusInProgress t1
      if t2.world.self.proxy_ then
        (true,
          { world := { t2.world with
              calls := t2.world.calls ++
                [Notification.OnProgressChanged t2.world.self.progress_] },
            steps := t2.steps ++
              [Step.call (Notification.OnProgressChanged t2.world.self.progress_)] })
      else (true, t2)
    else (true, t)

/-- The two data members whose changes are notified. -/
inductive Field where
  | progress
  | status
deriving DecidableEq, Repr

/-- The members written, in the order of the writes. -/
def mutationOrder : List Step → List Field
  | [] => []
  | Step.write_progress _ :: ss => Field.progress :: mutationOrder ss
  | Step.write_status _ :: ss => Field.status :: mutationOrder ss
  | Step.call _ :: ss => mutationOrder ss

/-- The members the delivered notifications are about, in order of delivery. -/
def notificationOrder : List Step → List Field
  | [] => []
  | Step.write_progress _ :: ss => notificationOrder ss
  | Step.write_status _ :: ss => notificationOrder ss
  | Step.call (Notification.OnProgressChanged _) :: ss => Field.progress :: notificationOrder ss
  | Step.call (Notification.OnStatusChanged _) :: ss => Field.status :: notificationOrder ss

/-! ## Arbitrary call sequences -/

/-- A call of one of the public mutators of `CommandInstance`. -/
inductive Call where
  | SetProgress (progress : Int)
  | Abort
  | Cancel
  | Done
deriving DecidableEq, Repr

/-- Make the call: the value returned (none for the `void` methods) and the
world left. -/
def Call.invoke : Call → World → Option Bool × World
  | .SetProgress progress, w => (some (buffet.SetProgress progress w).1, (buffet.SetProgress progress w).2)
  | .Abort, w => (none, buffet.Abort w)
  | .Cancel, w => (none, buffet.Cancel w)
  | .Done, w => (none, buffet.Done w)

/-- A finite sequence of calls, first element first. -/
def runCalls : List Call → World → World
  | [], w => w
  | c :: cs, w => runCalls cs (c.invoke w).2

/-- The same world with no proxy attached to the instance. -/
def withoutProxy (w : World) : World :=
  { w with self := { w.self with proxy_ := false } }

/-! ## Sample requests -/

/-- The dictionary of the spec's scenario: one command "reboot", category
"system", no parameters. -/
def rebootDictionary : CommandDictionary :=
  ⟨[("reboot", { category_ := "system", parameters_ := [], results_ := [] })]⟩

/-- The request `{"name":"reboot"}`. -/
def rebootRequest : Value := .dictionary [("name", .string "reboot")]

/-- The request `{"name":"reboot","parameters":{"delay":5}}`. -/
def rebootDelayRequest : Value :=
  .dictionary [("name", .string "reboot"), ("parameters", .dictionary [("delay", .integer 5)])]

/-- The request `{"name":"reboot","parameters":{}}`. -/
def rebootEmptyParamsRequest : Value :=
  .dictionary [("name", .string "reboot"), ("parameters", .dictionary [])]

/-- A definition whose results are one required integer "code". -/
def sampleDefinition : CommandDefinition :=
  { category_ := "system", parameters_ := [],
    results_ := [("code", Schema.integer none none none none, true)] }

/-- A stand-in for `CommandInstance::SetResults`: store the object. -/
def storeResults (results : Object) (w : World) : World :=
  { w with self := { w.self with results_ := results } }

/-! ## Sample states -/

/-- A freshly created instance: status `queued`, progress 0, a proxy attached
and held by a queue. -/
def sampleInstance : CommandInstance :=
  { id_ := "7", name_ := "reboot", category_ := "system", parameters_ := [],
    results_ := [], status_ := kStatusQueued, progress_ := 0,
    proxy_ := true, queue_ := true }

/-- A queue holding the sample instance under its id, between two others. -/
def sampleQueue : CommandQueue := ⟨[("3", 30), ("7", 70), ("9", 90)]⟩

/-- The sample instance in its queue, nothing delivered to the proxy yet. -/
def sampleWorld : World := { self := sampleInstance, queue := sampleQueue, calls := [] }

/-- An instance that was never put in a queue and has completed: status
`done`, progress 100, proxy attached. -/
def doneWorld : World :=
  { self := { sampleInstance with status_ := kStatusDone, progress_ := 100, queue_ := false },
    queue := ⟨[]⟩, calls := [] }

/-! ## Theorems -/

theorem SetProgress_out_of_range_aux (w : World) (p : Int) (h : p < 0 ∨ p > 100) :
    SetProgress p w = (false, w) := by
  simp [SetProgress, h]

/-- C1: for every state and every p with p < 0 or p > 100, `SetProgress(p)`
returns false and leaves the whole world as it was: progress, status and the
calls delivered to the proxy. -/
theorem SetProgress_out_of_range (w : World) (p : Int) (h : p < 0 ∨ p > 100) :
    SetProgress p w = (false, w) := by
  unfold SetProgress
  rw [if_pos h]

theorem SetProgress_out_of_range_witness :
    ((101 : Int) < 0 ∨ (101 : Int) > 100) ∧ SetProgress 101 sampleWorld = (false, sampleWorld) :=
  ⟨by decide, SetProgress_out_of_range sampleWorld 101 (by decide)⟩

/-! ### Closed forms of the setters -/

theorem SetStatus_eq (status : String) (w : World) :
    SetStatus status w =
      { self := { w.self with status_ := status }, queue := w.queue,
        calls := w.calls ++ (if status ≠ w.self.status_ ∧ w.self.proxy_ = true
          then [Notification.OnStatusChanged status] else []) } := by
  obtain ⟨⟨i, n, c, ps, rs, st, pr, px, qu⟩, q, cs⟩ := w
  unfold SetStatus
  by_cases h : status = st
  · subst h; simp
  · cases px <;> simp [h]

theorem SetProgress_same (p : Int) (w : World) (h0 : 0 ≤ p) (h1 : p ≤ 100)
    (he : p = w.self.progress_) : SetProgress p w = (true, w) := by
  unfold SetProgress
  have h : ¬ (p < 0 ∨ p > 100) := by omega
  rw [if_neg h, if_neg (not_not.mpr he)]

theorem SetProgress_new (p : Int) (w : World) (h0 : 0 ≤ p) (h1 : p ≤ 100)
    (hne : p ≠ w.self.progress_) :
    SetProgress p w =
      (true, { self := { w.self with progress_ := p, status_ := kStatusInProgress },
               queue := w.queue,
               calls := w.calls ++
                 (if kStatusInProgress ≠ w.self.status_ ∧ w.self.proxy_ = true
                    then [Notification.OnStatusChanged kStatusInProgress] else []) ++
                 (if w.self.proxy_ = true then [Notification.OnProgressChanged p] else []) }) := by
  obtain ⟨⟨i, n, c, ps, rs, st, pr, px, qu⟩, q, cs⟩ := w
  unfold SetProgress
  have h : ¬ (p < 0 ∨ p > 100) := by omega
  rw [if_neg h, if_pos hne]
  simp only [SetStatus_eq]
  cases px <;> simp

theorem SetProgress_fst (p : Int) (w : World) :
    (SetProgress p w).1 = decide (0 ≤ p ∧ p ≤ 100) := by
  by_cases h : p < 0 ∨ p > 100
  · have h2 : ¬ (0 ≤ p ∧ p ≤ 100) := by omega
    rw [SetProgress_out_of_range_aux w p h, decide_eq_false h2]
  · have h0 : 0 ≤ p := by omega
    have h1 : p ≤ 100 := by omega
    rw [decide_eq_true (show 0 ≤ p ∧ p ≤ 100 from ⟨h0, h1⟩)]
    by_cases hne : p = w.self.progress_
    · rw [SetProgress_same p w h0 h1 hne]
    · rw [SetProgress_new p w h0 h1 hne]

theorem SetProgress_queue (p : Int) (w : World) : (SetProgress p w).2.queue = w.queue := by
  by_cases h : p < 0 ∨ p > 100
  · rw [SetProgress_out_of_range_aux w p h]
  · have h0 : 0 ≤ p := by omega
    have h1 : p ≤ 100 := by omega
    by_cases hne : p = w.self.progress_
    · rw [SetProgress_same p w h0 h1 hne]
    · rw [SetProgress_new p w h0 h1 hne]

theorem RemoveFromQueue_eq (w : World) :
    RemoveFromQueue w =
      { self := w.self,
        queue := if w.self.queue_ = true then (w.queue.Remove w.self.id_).2 else w.queue,
        calls := w.calls } := by
  unfold RemoveFromQueue
  by_cases h : w.self.queue_ = true
  · rw [if_pos h, if_pos h]
  · rw [if_neg h, if_neg h]

/-- C2: for every instance in a non-terminal status and every p in [0,100]
different from the current progress, `SetProgress(p)` returns true and
afterwards progress is p and status is "inProgress". -/
theorem SetProgress_in_range_new_value (w : World) (p : Int)
    (_hnt : isTerminal w.self.status_ = false) (h0 : 0 ≤ p) (h1 : p ≤ 100)
    (hne : p ≠ w.self.progress_) :
    (SetProgress p w).1 = true ∧ (SetProgress p w).2.self.progress_ = p ∧
      (SetProgress p w).2.self.status_ = kStatusInProgress := by
  refine ⟨?_, ?_, ?_⟩
  · rw [SetProgress_fst]; exact decide_eq_true ⟨h0, h1⟩
  · rw [SetProgress_new p w h0 h1 hne]
  · rw [SetProgress_new p w h0 h1 hne]

theorem SetProgress_in_range_new_value_witness :
    (SetProgress 41 sampleWorld).1 = true ∧ (SetProgress 41 sampleWorld).2.self.progress_ = 41 ∧
      (SetProgress 41 sampleWorld).2.self.status_ = kStatusInProgress :=
  SetProgress_in_range_new_value sampleWorld 41 (by decide) (by decide) (by decide) (by decide)

/-- C3: `SetProgress` is idempotent.  With p in [0,100] equal to the current
progress it returns true and leaves the world untouched (status, progress and
the calls delivered to the proxy: no `OnProgressChanged`, no
`OnStatusChanged`); and for every p a second `SetProgress(p)` right after a
first returns the same value and leaves the world the first call produced, so
it emits nothing. -/
theorem SetProgress_idempotent (w : World) (p : Int) :
    (0 ≤ p → p ≤ 100 → p = w.self.progress_ → SetProgress p w = (true, w)) ∧
      SetProgress p (SetProgress p w).2 = ((SetProgress p w).1, (SetProgress p w).2) := by
  refine ⟨SetProgress_same p w, ?_⟩
  by_cases h : p < 0 ∨ p > 100
  · simp [SetProgress_out_of_range_aux w p h]
  · have h0 : 0 ≤ p := by omega
    have h1 : p ≤ 100 := by omega
    have hfst : (SetProgress p w).1 = true := by
      rw [SetProgress_fst]; exact decide_eq_true ⟨h0, h1⟩
    have hprog : p = (SetProgress p w).2.self.progress_ := by
      by_cases hne : p = w.self.progress_
      · rw [SetProgress_same p w h0 h1 hne]; exact hne
      · rw [SetProgress_new p w h0 h1 hne]
    rw [SetProgress_same p _ h0 h1 hprog, hfst]

theorem SetProgress_idempotent_witness :
    SetProgress 0 sampleWorld = (true, sampleWorld) ∧
      SetProgress 40 (SetProgress 40 sampleWorld).2 =
        ((SetProgress 40 sampleWorld).1, (SetProgress 40 sampleWorld).2) :=
  ⟨(SetProgress_idempotent sampleWorld 0).1 (by decide) (by decide) rfl,
    (SetProgress_idempotent sampleWorld 40).2⟩

/-- C4: after `Done()` progress is 100 and status is "done", whatever the
progress and status were before the call. -/
theorem Done_sets_progress_and_status (w : World) :
    (Done w).self.progress_ = 100 ∧ (Done w).self.status_ = kStatusDone := by
  unfold Done
  rw [RemoveFromQueue_eq, SetStatus_eq]
  refine ⟨?_, rfl⟩
  by_cases hne : (100 : Int) = w.self.progress_
  · rw [SetProgress_same 100 w (by decide) (by decide) hne]; exact hne.symm
  · rw [SetProgress_new 100 w (by decide) (by decide) hne]

/-- C5, as stated, fails: on a freshly queued instance with progress 0 and a
proxy attached, `Done()` delivers `OnStatusChanged("inProgress")`,
`OnProgressChanged(100)`, `OnStatusChanged("done")`: two status notifications,
not one. -/
theorem Done_fresh_emits_two_status_calls :
    sampleWorld.self.proxy_ = true ∧ isTerminal sampleWorld.self.status_ = false ∧
      sampleWorld.self.progress_ = 0 ∧ sampleWorld.self.status_ = "queued" ∧
      (Done sampleWorld).calls =
        [Notification.OnStatusChanged "inProgress", Notification.OnProgressChanged 100,
         Notification.OnStatusChanged "done"] ∧
      statusCalls (Done sampleWorld).calls ≠ statusCalls sampleWorld.calls ++ ["done"] := by
  decide

/-- C5, amended: for an instance with a proxy attached and a non-terminal
status, `Done()` delivers, in this order: when progress was not 100, first
`OnStatusChanged("inProgress")` (only if the status was not already
"inProgress") and then `OnProgressChanged(100)`; and last, always,
`OnStatusChanged("done")`.  So `OnStatusChanged("done")` is delivered exactly
once, `OnProgressChanged` once with value 100 when progress was not 100 and
not at all otherwise. -/
theorem Done_calls (w : World) (hp : w.self.proxy_ = true)
    (hnt : isTerminal w.self.status_ = false) :
    (Done w).calls =
        w.calls ++
          (if w.self.progress_ ≠ 100 then
            (if w.self.status_ ≠ kStatusInProgress
              then [Notification.OnStatusChanged kStatusInProgress] else []) ++
            [Notification.OnProgressChanged 100]
           else []) ++
          [Notification.OnStatusChanged kStatusDone] ∧
      progressCalls (Done w).calls =
        progressCalls w.calls ++ (if w.self.progress_ ≠ 100 then [100] else []) := by
  have hd : ¬ kStatusDone = w.self.status_ := by
    intro e
    rw [← e] at hnt
    exact absurd hnt (by decide)
  have hcalls : (Done w).calls =
        w.calls ++
          (if w.self.progress_ ≠ 100 then
            (if w.self.status_ ≠ kStatusInProgress
              then [Notification.OnStatusChanged kStatusInProgress] else []) ++
            [Notification.OnProgressChanged 100]
           else []) ++
          [Notification.OnStatusChanged kStatusDone] := by
    unfold Done
    rw [RemoveFromQueue_eq, SetStatus_eq]
    by_cases hne : (100 : Int) = w.self.progress_
    · rw [SetProgress_same 100 w (by decide) (by decide) hne]
      simp [hd, hp, hne.symm]
    · rw [SetProgress_new 100 w (by decide) (by decide) hne]
      have hne2 : ¬ w.self.progress_ = 100 := fun e => hne e.symm
      have hdi : ¬ kStatusDone = kStatusInProgress := by decide
      by_cases hst : w.self.status_ = kStatusInProgress
      · simp [hp, hne2, hst, hdi]
      · have hst2 : ¬ kStatusInProgress = w.self.status_ := fun e => hst e.symm
        simp [hp, hne2, hst, hst2, hdi]
  refine ⟨hcalls, ?_⟩
  rw [hcalls]
  have happ : ∀ a b : List Notification,
      progressCalls (a ++ b) = progressCalls a ++ progressCalls b := by
    intro a b
    induction a with
    | nil => rfl
    | cons x xs ih => cases x <;> simp [progressCalls, ih]
  by_cases hne : w.self.progress_ = 100
  · simp [happ, hne, progressCalls]
  · by_cases hst : w.self.status_ = kStatusInProgress <;>
      simp [happ, hne, hst, progressCalls]

theorem Done_calls_witness :
    (Done sampleWorld).calls =
        sampleWorld.calls ++
          (if sampleWorld.self.progress_ ≠ 100 then
            (if sampleWorld.self.status_ ≠ kStatusInProgress
              then [Notification.OnStatusChanged kStatusInProgress] else []) ++
            [Notification.OnProgressChanged 100]
           else []) ++
          [Notification.OnStatusChanged kStatusDone] ∧
      progressCalls (Done sampleWorld).calls =
        progressCalls sampleWorld.calls ++
          (if sampleWorld.self.progress_ ≠ 100 then [100] else []) :=
  Done_calls sampleWorld (by decide) (by decide)

/-! ### Queue lemmas -/

theorem Find_Remove_self (q : CommandQueue) (id : String) :
    (q.Remove id).2.Find id = none := by
  unfold CommandQueue.Remove CommandQueue.Find
  simp only [Option.map_eq_none', List.find?_eq_none]
  intro e he
  have h2 := (List.mem_filter.mp he).2
  simpa using h2

theorem find_filter_other (l : List (String × InstanceHandle)) (id j : String) (hj : j ≠ id) :
    List.find? (fun e => e.1 == j) (l.filter (fun e => !(e.1 == id))) =
      List.find? (fun e => e.1 == j) l := by
  induction l with
  | nil => rfl
  | cons e es ih =>
    by_cases hid : e.1 = id
    · have hdrop : (e.1 == id) = true := by simp [hid]
      have hej : (e.1 == j) = false := by
        simp only [beq_eq_false_iff_ne, ne_eq]
        exact fun h => hj (h.symm.trans hid)
      simp only [List.filter_cons, List.find?_cons, hdrop, hej, Bool.not_true]
      exact ih
    · have hkeep : (e.1 == id) = false := by simp [hid]
      by_cases hej : (e.1 == j) = true
      · simp only [List.filter_cons, List.find?_cons, hkeep, hej, Bool.not_false, if_true]
      · have hej2 : (e.1 == j) = false := by simpa using hej
        simp only [List.filter_cons, List.find?_cons, hkeep, hej2, Bool.not_false, if_true]
        exact ih

theorem Find_Remove_other (q : CommandQueue) (id j : String) (hj : j ≠ id) :
    (q.Remove id).2.Find j = q.Find j := by
  unfold CommandQueue.Remove CommandQueue.Find
  simp only
  rw [find_filter_other q.map_ id j hj]

theorem runSetProgress_keeps (ps : List Int) (w : World) :
    (runSetProgress ps w).queue = w.queue ∧ (runSetProgress ps w).self.id_ = w.self.id_ ∧
      (runSetProgress ps w).self.queue_ = w.self.queue_ := by
  induction ps generalizing w with
  | nil => exact ⟨rfl, rfl, rfl⟩
  | cons p ps ih =>
    have h := ih (SetProgress p w).2
    have hstep : (SetProgress p w).2.queue = w.queue ∧
        (SetProgress p w).2.self.id_ = w.self.id_ ∧
        (SetProgress p w).2.self.queue_ = w.self.queue_ := by
      by_cases hr : p < 0 ∨ p > 100
      · rw [SetProgress_out_of_range_aux w p hr]; exact ⟨rfl, rfl, rfl⟩
      · have h0 : 0 ≤ p := by omega
        have h1 : p ≤ 100 := by omega
        by_cases hne : p = w.self.progress_
        · rw [SetProgress_same p w h0 h1 hne]; exact ⟨rfl, rfl, rfl⟩
        · rw [SetProgress_new p w h0 h1 hne]; exact ⟨rfl, rfl, rfl⟩
    show (runSetProgress ps (SetProgress p w).2).queue = w.queue ∧
      (runSetProgress ps (SetProgress p w).2).self.id_ = w.self.id_ ∧
      (runSetProgress ps (SetProgress p w).2).self.queue_ = w.self.queue_
    rw [h.1, h.2.1, h.2.2]
    exact hstep

theorem TerminalCall_run_queue (op : TerminalCall) (w : World) :
    (op.run w).queue =
      if w.self.queue_ = true then (w.queue.Remove w.self.id_).2 else w.queue := by
  cases op
  · show (Abort w).queue = _
    unfold Abort
    rw [RemoveFromQueue_eq, SetStatus_eq]
  · show (Cancel w).queue = _
    unfold Cancel
    rw [RemoveFromQueue_eq, SetStatus_eq]
  · show (Done w).queue = _
    unfold Done
    rw [RemoveFromQueue_eq, SetStatus_eq]
    have hq := SetProgress_queue 100 w
    have hi := (runSetProgress_keeps [100] w).2
    simp only [runSetProgress] at hi
    simp only [hq, hi.1, hi.2]

/-- C6: for every instance in a non-terminal status, `Abort()` sets the
status to "aborted" and `Cancel()` to "canceled", every other field of the
instance (progress, name, category, parameters, …) staying as it was; and both
leave the same queue: the one `Remove` of the instance's own id yields when
`queue_` is set, the untouched one otherwise. -/
theorem Abort_Cancel_differ_in_status_only (w : World)
    (_hnt : isTerminal w.self.status_ = false) :
    (Abort w).self = { w.self with status_ := kStatusAborted } ∧
      (Cancel w).self = { w.self with status_ := kStatusCanceled } ∧
      (Abort w).queue =
        (if w.self.queue_ = true then (w.queue.Remove w.self.id_).2 else w.queue) ∧
      (Cancel w).queue = (Abort w).queue := by
  unfold Abort Cancel
  simp only [RemoveFromQueue_eq, SetStatus_eq, and_self]

theorem Abort_Cancel_differ_in_status_only_witness :
    (Abort sampleWorld).self = { sampleWorld.self with status_ := kStatusAborted } ∧
      (Cancel sampleWorld).self = { sampleWorld.self with status_ := kStatusCanceled } ∧
      (Abort sampleWorld).queue =
        (if sampleWorld.self.queue_ = true
          then (sampleWorld.queue.Remove sampleWorld.self.id_).2 else sampleWorld.queue) ∧
      (Cancel sampleWorld).queue = (Abort sampleWorld).queue :=
  Abort_Cancel_differ_in_status_only sampleWorld (by decide)

/-- C7: let a queue hold an instance under its id (the instance's `queue_`
refers to the queue).  After any sequence of `SetProgress` calls followed by
one of `Abort()`, `Cancel()`, `Done()`, `Find` of that id yields none, `Find`
of every other id yields what it did before, and a further `Remove` of the id
returns none. -/
theorem terminal_call_removes_from_queue (w : World) (ps : List Int) (op : TerminalCall)
    (h : InstanceHandle) (hq : w.self.queue_ = true)
    (_hheld : w.queue.Find w.self.id_ = some h) :
    (op.run (runSetProgress ps w)).queue.Find w.self.id_ = none ∧
      (∀ j, j ≠ w.self.id_ →
        (op.run (runSetProgress ps w)).queue.Find j = w.queue.Find j) ∧
      ((op.run (runSetProgress ps w)).queue.Remove w.self.id_).1 = none := by
  obtain ⟨hk1, hk2, hk3⟩ := runSetProgress_keeps ps w
  have hqueue : (op.run (runSetProgress ps w)).queue = (w.queue.Remove w.self.id_).2 := by
    rw [TerminalCall_run_queue, hk1, hk2, hk3, if_pos hq]
  rw [hqueue]
  exact ⟨Find_Remove_self _ _, fun j hj => Find_Remove_other _ _ j hj, Find_Remove_self _ _⟩

theorem terminal_call_removes_from_queue_witness :
    (TerminalCall.done.run (runSetProgress [10, 200, 55] sampleWorld)).queue.Find "7" = none ∧
      (∀ j, j ≠ "7" →
        (TerminalCall.done.run (runSetProgress [10, 200, 55] sampleWorld)).queue.Find j =
          sampleQueue.Find j) ∧
      ((TerminalCall.done.run (runSetProgress [10, 200, 55] sampleWorld)).queue.Remove "7").1 =
        none :=
  terminal_call_removes_from_queue sampleWorld [10, 200, 55] TerminalCall.done 70 rfl
    (by decide)

/-- C8, as stated, fails: the methods have no guard on the current status.  On
an instance that is "done" with progress 100 (one never put in a queue, so it
outlives `Done()`), `Abort()` changes the status to "aborted" and notifies the
proxy, and `SetProgress(50)` sets progress 50 and status "inProgress". -/
theorem terminal_status_is_left :
    isTerminal doneWorld.self.status_ = true ∧
      (Abort doneWorld).self.status_ = "aborted" ∧
      (Abort doneWorld).calls = [Notification.OnStatusChanged "aborted"] ∧
      (SetProgress 50 doneWorld).1 = true ∧
      (SetProgress 50 doneWorld).2.self.progress_ = 50 ∧
      (SetProgress 50 doneWorld).2.self.status_ = "inProgress" ∧
      (SetProgress 50 doneWorld).2.calls =
        [Notification.OnStatusChanged "inProgress", Notification.OnProgressChanged 50] := by
  decide

/-- C8, amended: on an instance in a terminal status the calls that leave
status and progress unchanged and notify nobody are the no-op ones:
`SetProgress(p)` with p outside [0,100] or equal to the current progress,
`Abort()` on an aborted instance, `Cancel()` on a canceled one, and `Done()`
on a done one whose progress is 100.  Every other call is applied as on a
non-terminal instance: `Abort()`, `Cancel()` and `Done()` end in "aborted",
"canceled" and "done", and `SetProgress(p)` with a new p in [0,100] ends in
"inProgress" with progress p. -/
theorem terminal_status_noop_calls (w : World) (p : Int)
    (_ht : isTerminal w.self.status_ = true) :
    ((p < 0 ∨ p > 100 ∨ p = w.self.progress_) → (SetProgress p w).2 = w) ∧
      (w.self.status_ = kStatusAborted → (Abort w).self = w.self ∧ (Abort w).calls = w.calls) ∧
      (w.self.status_ = kStatusCanceled →
        (Cancel w).self = w.self ∧ (Cancel w).calls = w.calls) ∧
      (w.self.status_ = kStatusDone → w.self.progress_ = 100 →
        (Done w).self = w.self ∧ (Done w).calls = w.calls) ∧
      (Abort w).self.status_ = kStatusAborted ∧
      (Cancel w).self.status_ = kStatusCanceled ∧
      (Done w).self.status_ = kStatusDone ∧
      (0 ≤ p → p ≤ 100 → p ≠ w.self.progress_ →
        (SetProgress p w).2.self.status_ = kStatusInProgress ∧
          (SetProgress p w).2.self.progress_ = p) := by
  refine ⟨?_, ?_, ?_, ?_, ?_, ?_, ?_, ?_⟩
  · intro h
    by_cases hr : p < 0 ∨ p > 100
    · rw [SetProgress_out_of_range_aux w p hr]
    · have he : p = w.self.progress_ := by omega
      rw [SetProgress_same p w (by omega) (by omega) he]
  · intro h
    unfold Abort
    rw [RemoveFromQueue_eq, SetStatus_eq]
    obtain ⟨⟨i, n, c, prm, rs, st, pr, px, qu⟩, q, cs⟩ := w
    simp only at h
    subst h
    simp
  · intro h
    unfold Cancel
    rw [RemoveFromQueue_eq, SetStatus_eq]
    obtain ⟨⟨i, n, c, prm, rs, st, pr, px, qu⟩, q, cs⟩ := w
    simp only at h
    subst h
    simp
  · intro h hp
    unfold Done
    rw [RemoveFromQueue_eq, SetStatus_eq, SetProgress_same 100 w (by decide) (by decide) hp.symm]
    obtain ⟨⟨i, n, c, prm, rs, st, pr, px, qu⟩, q, cs⟩ := w
    simp only at h
    subst h
    simp
  · unfold Abort
    rw [RemoveFromQueue_eq, SetStatus_eq]
  · unfold Cancel
    rw [RemoveFromQueue_eq, SetStatus_eq]
  · unfold Done
    rw [RemoveFromQueue_eq, SetStatus_eq]
  · intro h0 h1 hne
    rw [SetProgress_new p w h0 h1 hne]
    exact ⟨rfl, rfl⟩

theorem terminal_status_noop_calls_witness :
    isTerminal doneWorld.self.status_ = true ∧
      (SetProgress 100 doneWorld).2 = doneWorld ∧
      (Done doneWorld).self = doneWorld.self ∧ (Done doneWorld).calls = doneWorld.calls ∧
      (Abort doneWorld).self.status_ = kStatusAborted :=
  ⟨by decide,
    (terminal_status_noop_calls doneWorld 100 (by decide)).1 (Or.inr (Or.inr rfl)),
    ((terminal_status_noop_calls doneWorld 100 (by decide)).2.2.2.1 rfl rfl).1,
    ((terminal_status_noop_calls doneWorld 100 (by decide)).2.2.2.1 rfl rfl).2,
    (terminal_status_noop_calls doneWorld 100 (by decide)).2.2.2.2.1⟩

/-! ### Creating an instance -/

theorem FromJson_not_object (V : Validator) (value : Value) (dictionary : CommandDictionary)
    (error : ErrorPtr) (hj : value.GetAsDictionary = none) :
    FromJson V value dictionary error =
      (none, Error.AddTo error json_kDomain json_kObjectExpected
        "Command instance is not a JSON object") := by
  unfold FromJson
  rw [hj]

theorem FromJson_no_name (V : Validator) (value : Value) (dictionary : CommandDictionary)
    (error : ErrorPtr) (json : DictionaryValue) (hj : value.GetAsDictionary = some json)
    (hn : GetStringWithoutPathExpansion json kCommand_Name = none) :
    FromJson V value dictionary error =
      (none, Error.AddTo error commands_kDomain kPropertyMissing "Command name is missing") := by
  unfold FromJson
  rw [hj]
  dsimp only
  rw [hn]

theorem FromJson_unknown_command (V : Validator) (value : Value)
    (dictionary : CommandDictionary) (error : ErrorPtr) (json : DictionaryValue)
    (command_name : String) (hj : value.GetAsDictionary = some json)
    (hn : GetStringWithoutPathExpansion json kCommand_Name = some command_name)
    (hd : dictionary.FindCommand command_name = none) :
    FromJson V value dictionary error =
      (none, Error.AddTo error commands_kDomain kInvalidCommandName
        ("Unknown command received: " ++ command_name)) := by
  unfold FromJson
  rw [hj]
  dsimp only
  rw [hn]
  dsimp only
  rw [hd]

theorem FromJson_known_command (V : Validator) (value : Value)
    (dictionary : CommandDictionary) (error : ErrorPtr) (json : DictionaryValue)
    (command_name : String) (command_def : CommandDefinition)
    (hj : value.GetAsDictionary = some json)
    (hn : GetStringWithoutPathExpansion json kCommand_Name = some command_name)
    (hd : dictionary.FindCommand command_name = some command_def) :
    FromJson V value dictionary error =
      match GetCommandParameters V json command_def error with
      | (none, error1) =>
        (none, Error.AddTo error1 commands_kDomain kCommandFailed
          ("Failed to validate command '" ++ command_name ++ "'"))
      | (some parameters, error1) =>
        (some (CommandInstance.CommandInstance command_name command_def.GetCategory parameters), error1) := by
  unfold FromJson
  rw [hj]
  dsimp only
  rw [hn]
  dsimp only
  rw [hd]

theorem GetCommandParameters_absent (V : Validator) (json : DictionaryValue)
    (command_def : CommandDefinition) (error : ErrorPtr)
    (hp : GetWithoutPathExpansion json kCommand_Parameters = none) :
    GetCommandParameters V json command_def error =
      match V [] command_def.GetParameters with
      | .ok parameters => (some parameters, error)
      | .error e => (none, e :: error) := by
  unfold GetCommandParameters
  rw [hp]

theorem GetCommandParameters_not_object (V : Validator) (json : DictionaryValue)
    (command_def : CommandDefinition) (error : ErrorPtr) (params_value : Value)
    (hp : GetWithoutPathExpansion json kCommand_Parameters = some params_value)
    (hg : params_value.GetAsDictionary = none) :
    GetCommandParameters V json command_def error =
      (none, Error.AddTo error json_kDomain json_kObjectExpected
        ("Property '" ++ kCommand_Parameters ++ "' must be a JSON object")) := by
  unfold GetCommandParameters
  rw [hp]
  dsimp only
  rw [hg]

theorem GetCommandParameters_object (V : Validator) (json : DictionaryValue)
    (command_def : CommandDefinition) (error : ErrorPtr) (params_value : Value)
    (params : DictionaryValue)
    (hp : GetWithoutPathExpansion json kCommand_Parameters = some params_value)
    (hg : params_value.GetAsDictionary = some params) :
    GetCommandParameters V json command_def error =
      match V params command_def.GetParameters with
      | .ok parameters => (some parameters, error)
      | .error e => (none, e :: error) := by
  unfold GetCommandParameters
  rw [hp]
  dsimp only
  rw [hg]

/-- The dictionary handed to the validator for a request: the "parameters"
object, the empty dictionary when the property is absent, none when it is
present and not an object. -/
theorem requestParams_cases (json : DictionaryValue) :
    (GetWithoutPathExpansion json kCommand_Parameters = none) ∨
      (∃ pv, GetWithoutPathExpansion json kCommand_Parameters = some pv ∧
        pv.GetAsDictionary = none) ∨
      (∃ pv params, GetWithoutPathExpansion json kCommand_Parameters = some pv ∧
        pv.GetAsDictionary = some params) := by
  cases hp : GetWithoutPathExpansion json kCommand_Parameters with
  | none => exact Or.inl rfl
  | some pv =>
    cases hg : pv.GetAsDictionary with
    | none => exact Or.inr (Or.inl ⟨pv, rfl, hg⟩)
    | some params => exact Or.inr (Or.inr ⟨pv, params, rfl, hg⟩)

/-- C9: `FromJson` returns an instance if and only if the value is a JSON
object, it has a string property "name", the dictionary has a definition for
that name, "parameters" is absent or is an object, and the parameters (the
empty dictionary when absent) validate against the definition's parameter
schema.  When it returns no instance the error chain has a new outermost
error on top of the previous chain; when it returns an instance the chain is
the one it was given. -/
theorem FromJson_succeeds_iff (V : Validator) (value : Value)
    (dictionary : CommandDictionary) (error : ErrorPtr) :
    ((FromJson V value dictionary error).1.isSome = true ↔
        ∃ json command_name command_def params parameters,
          value.GetAsDictionary = some json ∧
          GetStringWithoutPathExpansion json kCommand_Name = some command_name ∧
          dictionary.FindCommand command_name = some command_def ∧
          ((GetWithoutPathExpansion json kCommand_Parameters = none ∧ params = []) ∨
            ∃ params_value, GetWithoutPathExpansion json kCommand_Parameters = some params_value ∧
              params_value.GetAsDictionary = some params) ∧
          V params command_def.GetParameters = .ok parameters) ∧
      ((FromJson V value dictionary error).1 = none →
        ∃ e inner, (FromJson V value dictionary error).2 = e :: (inner ++ error)) ∧
      ((FromJson V value dictionary error).1.isSome = true →
        (FromJson V value dictionary error).2 = error) := by
  cases hj : value.GetAsDictionary with
  | none =>
    rw [FromJson_not_object V value dictionary error hj]
    refine ⟨⟨fun h => by simp at h, ?_⟩, fun _ => ⟨_, [], rfl⟩, fun h => by simp at h⟩
    rintro ⟨json, _, _, _, _, h, _⟩
    exact absurd h (by simp)
  | some json =>
    cases hn : GetStringWithoutPathExpansion json kCommand_Name with
    | none =>
      rw [FromJson_no_name V value dictionary error json hj hn]
      refine ⟨⟨fun h => by simp at h, ?_⟩, fun _ => ⟨_, [], rfl⟩, fun h => by simp at h⟩
      rintro ⟨json2, _, _, _, _, h, h2, _⟩
      cases Option.some.inj h
      rw [hn] at h2
      exact absurd h2 (by simp)
    | some command_name =>
      cases hd : dictionary.FindCommand command_name with
      | none =>
        rw [FromJson_unknown_command V value dictionary error json command_name hj hn hd]
        refine ⟨⟨fun h => by simp at h, ?_⟩, fun _ => ⟨_, [], rfl⟩, fun h => by simp at h⟩
        rintro ⟨json2, name2, _, _, _, h, h2, h3, _⟩
        cases Option.some.inj h
        rw [hn] at h2
        cases Option.some.inj h2
        rw [hd] at h3
        exact absurd h3 (by simp)
      | some command_def =>
        rw [FromJson_known_command V value dictionary error json command_name command_def
          hj hn hd]
        rcases requestParams_cases json with hp | ⟨pv, hp, hg⟩ | ⟨pv, params, hp, hg⟩
        · rw [GetCommandParameters_absent V json command_def error hp]
          cases hv : V [] command_def.GetParameters with
          | ok parameters =>
            refine ⟨⟨fun _ => ?_, fun _ => rfl⟩, fun h => by simp at h, fun _ => rfl⟩
            exact ⟨json, command_name, command_def, [], parameters, rfl, hn, hd,
              Or.inl ⟨hp, rfl⟩, hv⟩
          | error e =>
            refine ⟨⟨fun h => by simp at h, ?_⟩, fun _ => ⟨_, [e], rfl⟩, fun h => by simp at h⟩
            rintro ⟨json2, name2, def2, params, parameters, h, h2, h3, h4, h5⟩
            cases Option.some.inj h
            rw [hn] at h2
            cases Option.some.inj h2
            rw [hd] at h3
            cases Option.some.inj h3
            rcases h4 with ⟨_, rfl⟩ | ⟨pv, hpv, _⟩
            · rw [hv] at h5
              exact absurd h5 (by simp)
            · rw [hp] at hpv
              exact absurd hpv (by simp)
        · rw [GetCommandParameters_not_object V json command_def error pv hp hg]
          refine ⟨⟨fun h => by simp at h, ?_⟩, fun _ => ⟨_, [_], rfl⟩, fun h => by simp at h⟩
          rintro ⟨json2, name2, def2, params, parameters, h, h2, h3, h4, h5⟩
          cases Option.some.inj h
          rcases h4 with ⟨hnone, _⟩ | ⟨pv2, hpv, hpd⟩
          · rw [hp] at hnone
            exact absurd hnone (by simp)
          · rw [hp] at hpv
            cases Option.some.inj hpv
            rw [hg] at hpd
            exact absurd hpd (by simp)
        · rw [GetCommandParameters_object V json command_def error pv params hp hg]
          cases hv : V params command_def.GetParameters with
          | ok parameters =>
            refine ⟨⟨fun _ => ?_, fun _ => rfl⟩, fun h => by simp at h, fun _ => rfl⟩
            exact ⟨json, command_name, command_def, params, parameters, rfl, hn, hd,
              Or.inr ⟨pv, hp, hg⟩, hv⟩
          | error e =>
            refine ⟨⟨fun h => by simp at h, ?_⟩, fun _ => ⟨_, [e], rfl⟩,
              fun h => by simp at h⟩
            rintro ⟨json2, name2, def2, params2, parameters, h, h2, h3, h4, h5⟩
            cases Option.some.inj h
            rw [hn] at h2
            cases Option.some.inj h2
            rw [hd] at h3
            cases Option.some.inj h3
            rcases h4 with ⟨hnone, _⟩ | ⟨pv2, hpv, hpd⟩
            · rw [hp] at hnone
              exact absurd hnone (by simp)
            · rw [hp] at hpv
              cases Option.some.inj hpv
              rw [hg] at hpd
              cases Option.some.inj hpd
              rw [hv] at h5
              exact absurd h5 (by simp)

theorem FromJson_succeeds_iff_witness :
    (FromJson TypedValueFromJson rebootRequest rebootDictionary []).1.isSome = true ∧
      (FromJson TypedValueFromJson rebootRequest rebootDictionary []).2 = [] ∧
      (FromJson TypedValueFromJson rebootDelayRequest rebootDictionary []).1 = none ∧
      ∃ e inner, (FromJson TypedValueFromJson rebootDelayRequest rebootDictionary []).2 =
        e :: (inner ++ []) :=
  ⟨by decide,
    (FromJson_succeeds_iff TypedValueFromJson rebootRequest rebootDictionary []).2.2 (by decide),
    rfl,
    (FromJson_succeeds_iff TypedValueFromJson rebootDelayRequest rebootDictionary []).2.1 rfl⟩

/-- C10: when `FromJson` returns an instance, the instance's name is the
request's "name", its category is the category of the dictionary's definition
for that name, its parameters are the typed object the validator produced for
the request parameters (the empty dictionary when absent) against the
definition's parameter schema, and its status is "queued".  With the
validation of spec §4.1, a command without declared parameters and a request
without "parameters" give an instance with empty parameters. -/
theorem FromJson_instance_fields (V : Validator) (value : Value)
    (dictionary : CommandDictionary) (error : ErrorPtr) (inst : CommandInstance)
    (h : (FromJson V value dictionary error).1 = some inst) :
    ∃ json command_def params,
      value.GetAsDictionary = some json ∧
      GetStringWithoutPathExpansion json kCommand_Name = some inst.name_ ∧
      dictionary.FindCommand inst.name_ = some command_def ∧
      inst.category_ = command_def.GetCategory ∧
      ((GetWithoutPathExpansion json kCommand_Parameters = none ∧ params = []) ∨
        ∃ params_value, GetWithoutPathExpansion json kCommand_Parameters = some params_value ∧
          params_value.GetAsDictionary = some params) ∧
      V params command_def.GetParameters = .ok inst.parameters_ ∧
      inst.status_ = kStatusQueued ∧
      (V = TypedValueFromJson → command_def.GetParameters = [] →
        GetWithoutPathExpansion json kCommand_Parameters = none → inst.parameters_ = []) := by
  have hempty : ∀ (json : DictionaryValue) (command_def : CommandDefinition)
      (params : DictionaryValue),
      ((GetWithoutPathExpansion json kCommand_Parameters = none ∧ params = []) ∨
        ∃ params_value, GetWithoutPathExpansion json kCommand_Parameters = some params_value ∧
          params_value.GetAsDictionary = some params) →
      V params command_def.GetParameters = .ok inst.parameters_ →
      (V = TypedValueFromJson → command_def.GetParameters = [] →
        GetWithoutPathExpansion json kCommand_Parameters = none → inst.parameters_ = []) := by
    intro json command_def params hor hv hV hs hp
    rcases hor with ⟨_, rfl⟩ | ⟨pv, hpv, _⟩
    · rw [hV, hs] at hv
      have h2 : (Except.ok [] : Except Error Object) = Except.ok inst.parameters_ := hv
      exact (Except.ok.inj h2).symm
    · rw [hp] at hpv
      exact absurd hpv (by simp)
  cases hj : value.GetAsDictionary with
  | none =>
    rw [FromJson_not_object V value dictionary error hj] at h
    exact absurd h (by simp)
  | some json =>
    cases hn : GetStringWithoutPathExpansion json kCommand_Name with
    | none =>
      rw [FromJson_no_name V value dictionary error json hj hn] at h
      exact absurd h (by simp)
    | some command_name =>
      cases hd : dictionary.FindCommand command_name with
      | none =>
        rw [FromJson_unknown_command V value dictionary error json command_name hj hn hd] at h
        exact absurd h (by simp)
      | some command_def =>
        rw [FromJson_known_command V value dictionary error json command_name command_def
          hj hn hd] at h
        rcases requestParams_cases json with hp | ⟨pv, hp, hg⟩ | ⟨pv, params, hp, hg⟩
        · rw [GetCommandParameters_absent V json command_def error hp] at h
          cases hv : V [] command_def.GetParameters with
          | ok parameters =>
            rw [hv] at h
            cases Option.some.inj h
            exact ⟨json, command_def, [], rfl, hn, hd, rfl, Or.inl ⟨hp, rfl⟩, hv, rfl,
              hempty json command_def [] (Or.inl ⟨hp, rfl⟩) hv⟩
          | error e =>
            rw [hv] at h
            exact absurd h (by simp)
        · rw [GetCommandParameters_not_object V json command_def error pv hp hg] at h
          exact absurd h (by simp)
        · rw [GetCommandParameters_object V json command_def error pv params hp hg] at h
          cases hv : V params command_def.GetParameters with
          | ok parameters =>
            rw [hv] at h
            cases Option.some.inj h
            exact ⟨json, command_def, params, rfl, hn, hd, rfl, Or.inr ⟨pv, hp, hg⟩, hv, rfl,
              hempty json command_def params (Or.inr ⟨pv, hp, hg⟩) hv⟩
          | error e =>
            rw [hv] at h
            exact absurd h (by simp)

theorem FromJson_instance_fields_witness :
    (FromJson TypedValueFromJson rebootRequest rebootDictionary []).1 =
        some (CommandInstance.CommandInstance "reboot" "system" []) ∧
      ∃ json command_def params,
        rebootRequest.GetAsDictionary = some json ∧
        GetStringWithoutPathExpansion json kCommand_Name =
          some (CommandInstance.CommandInstance "reboot" "system" []).name_ ∧
        rebootDictionary.FindCommand (CommandInstance.CommandInstance "reboot" "system" []).name_ =
          some command_def ∧
        (CommandInstance.CommandInstance "reboot" "system" []).category_ = command_def.GetCategory ∧
        ((GetWithoutPathExpansion json kCommand_Parameters = none ∧ params = []) ∨
          ∃ params_value,
            GetWithoutPathExpansion json kCommand_Parameters = some params_value ∧
              params_value.GetAsDictionary = some params) ∧
        TypedValueFromJson params command_def.GetParameters =
          .ok (CommandInstance.CommandInstance "reboot" "system" []).parameters_ ∧
        (CommandInstance.CommandInstance "reboot" "system" []).status_ = kStatusQueued ∧
        (TypedValueFromJson = TypedValueFromJson → command_def.GetParameters = [] →
          GetWithoutPathExpansion json kCommand_Parameters = none →
          (CommandInstance.CommandInstance "reboot" "system" []).parameters_ = []) :=
  ⟨rfl, FromJson_instance_fields TypedValueFromJson rebootRequest rebootDictionary []
    (CommandInstance.CommandInstance "reboot" "system" []) rfl⟩

/-! ### Requests with and without "parameters" -/

theorem GetString_of_Get_eq (json json2 : DictionaryValue) (key : String)
    (h : GetWithoutPathExpansion json2 key = GetWithoutPathExpansion json key) :
    GetStringWithoutPathExpansion json2 key = GetStringWithoutPathExpansion json key := by
  unfold GetStringWithoutPathExpansion
  rw [h]

theorem FromJson_dictionary_eq (V : Validator) (json : DictionaryValue)
    (dictionary : CommandDictionary) (error : ErrorPtr) :
    FromJson V (Value.dictionary json) dictionary error =
      match GetStringWithoutPathExpansion json kCommand_Name with
      | none =>
        (none, Error.AddTo error commands_kDomain kPropertyMissing "Command name is missing")
      | some command_name =>
        match dictionary.FindCommand command_name with
        | none =>
          (none, Error.AddTo error commands_kDomain kInvalidCommandName
            ("Unknown command received: " ++ command_name))
        | some command_def =>
          match GetCommandParameters V json command_def error with
          | (none, error1) =>
            (none, Error.AddTo error1 commands_kDomain kCommandFailed
              ("Failed to validate command '" ++ command_name ++ "'"))
          | (some parameters, error1) =>
            (some (CommandInstance.CommandInstance command_name command_def.GetCategory
              parameters), error1) := by
  rfl

/-- C11: a request object without "parameters" is treated exactly like the
same request with "parameters": {} (every other property read alike, at
whatever position the empty object is stored): `FromJson` returns the same
pair on both, so it succeeds on one iff on the other, with equal instances on
success and equal error chains on failure. -/
theorem FromJson_absent_parameters_as_empty (V : Validator) (json json2 : DictionaryValue)
    (dictionary : CommandDictionary) (error : ErrorPtr)
    (habs : GetWithoutPathExpansion json kCommand_Parameters = none)
    (hemp : GetWithoutPathExpansion json2 kCommand_Parameters = some (Value.dictionary []))
    (hsame : ∀ key, key ≠ kCommand_Parameters →
      GetWithoutPathExpansion json2 key = GetWithoutPathExpansion json key) :
    FromJson V (Value.dictionary json2) dictionary error =
      FromJson V (Value.dictionary json) dictionary error := by
  have hname : GetStringWithoutPathExpansion json2 kCommand_Name =
      GetStringWithoutPathExpansion json kCommand_Name :=
    GetString_of_Get_eq json json2 kCommand_Name (hsame kCommand_Name (by decide))
  have hparams : ∀ command_def, GetCommandParameters V json2 command_def error =
      GetCommandParameters V json command_def error := by
    intro command_def
    rw [GetCommandParameters_absent V json command_def error habs,
      GetCommandParameters_object V json2 command_def error (Value.dictionary []) [] hemp rfl]
  rw [FromJson_dictionary_eq, FromJson_dictionary_eq, hname]
  cases GetStringWithoutPathExpansion json kCommand_Name with
  | none => rfl
  | some command_name =>
    dsimp only
    cases dictionary.FindCommand command_name with
    | none => rfl
    | some command_def =>
      dsimp only
      rw [hparams command_def]

theorem FromJson_absent_parameters_as_empty_witness :
    FromJson TypedValueFromJson rebootEmptyParamsRequest rebootDictionary [] =
      FromJson TypedValueFromJson rebootRequest rebootDictionary [] :=
  FromJson_absent_parameters_as_empty TypedValueFromJson [("name", Value.string "reboot")]
    [("name", Value.string "reboot"), ("parameters", Value.dictionary [])]
    rebootDictionary [] rfl rfl
    (by
      intro key hk
      have hk2 : ("parameters" == key) = false := by
        simp only [beq_eq_false_iff_ne, ne_eq]
        exact fun h => hk h.symm
      simp [GetWithoutPathExpansion, List.find?_cons, hk2])

/-- C12: `FromJson` reports the first failing check, in this order.  A value
that is not a JSON object fails with json / objectExpected.  Otherwise a
missing or non-string "name" fails with command / propertyMissing.  Otherwise
a name the dictionary does not know fails with command / invalidCommandName.
Nothing is assumed about "parameters" in any of the three cases; each time no
instance is returned and the new error is put on top of the given chain. -/
theorem FromJson_first_failing_check (V : Validator) (value : Value)
    (dictionary : CommandDictionary) (error : ErrorPtr) :
    (value.GetAsDictionary = none →
        FromJson V value dictionary error =
          (none, { domain := json_kDomain, code := json_kObjectExpected,
                   message := "Command instance is not a JSON object" } :: error)) ∧
      (∀ json, value.GetAsDictionary = some json →
        (GetWithoutPathExpansion json kCommand_Name = none ∨
          ∃ v, GetWithoutPathExpansion json kCommand_Name = some v ∧ v.GetAsString = none) →
        FromJson V value dictionary error =
          (none, { domain := commands_kDomain, code := kPropertyMissing,
                   message := "Command name is missing" } :: error)) ∧
      (∀ json command_name, value.GetAsDictionary = some json →
        GetWithoutPathExpansion json kCommand_Name = some (Value.string command_name) →
        dictionary.FindCommand command_name = none →
        FromJson V value dictionary error =
          (none, { domain := commands_kDomain, code := kInvalidCommandName,
                   message := "Unknown command received: " ++ command_name } :: error)) := by
  refine ⟨fun hj => FromJson_not_object V value dictionary error hj, ?_, ?_⟩
  · intro json hj hname
    have hn : GetStringWithoutPathExpansion json kCommand_Name = none := by
      unfold GetStringWithoutPathExpansion
      rcases hname with h | ⟨v, h, hv⟩
      · rw [h]
      · rw [h]; exact hv
    exact FromJson_no_name V value dictionary error json hj hn
  · intro json command_name hj hname hd
    have hn : GetStringWithoutPathExpansion json kCommand_Name = some command_name := by
      unfold GetStringWithoutPathExpansion
      rw [hname]
      rfl
    exact FromJson_unknown_command V value dictionary error json command_name hj hn hd

theorem FromJson_first_failing_check_witness :
    FromJson TypedValueFromJson (Value.integer 3) rebootDictionary [] =
        (none, [{ domain := "json", code := "objectExpected",
                  message := "Command instance is not a JSON object" }]) ∧
      FromJson TypedValueFromJson
          (Value.dictionary [("name", Value.integer 3), ("parameters", Value.integer 1)])
          rebootDictionary [] =
        (none, [{ domain := "command", code := "propertyMissing",
                  message := "Command name is missing" }]) ∧
      FromJson TypedValueFromJson
          (Value.dictionary [("name", Value.string "x"), ("parameters", Value.integer 1)])
          rebootDictionary [] =
        (none, [{ domain := "command", code := "invalidCommandName",
                  message := "Unknown command received: " ++ "x" }]) :=
  ⟨(FromJson_first_failing_check TypedValueFromJson (Value.integer 3) rebootDictionary []).1 rfl,
    (FromJson_first_failing_check TypedValueFromJson
      (Value.dictionary [("name", Value.integer 3), ("parameters", Value.integer 1)])
      rebootDictionary []).2.1 _ rfl (Or.inr ⟨Value.integer 3, rfl, rfl⟩),
    (FromJson_first_failing_check TypedValueFromJson
      (Value.dictionary [("name", Value.string "x"), ("parameters", Value.integer 1)])
      rebootDictionary []).2.2 _ "x" rfl rfl rfl⟩

/-- C13: for a request naming a known command, a failure of the parameters
makes `FromJson` return no instance with command / commandFailed as the
outermost error and the cause right beneath it: json / objectExpected when
"parameters" is present and not an object, and otherwise the error of the
validator itself, run on the "parameters" object (on the empty dictionary when
the property is absent).  With the validation of spec §4.1, the request
`{"name":"reboot","parameters":{"delay":5}}` against a "reboot" without
declared parameters has the `UnknownProperty` error for path `delay` beneath
commandFailed. -/
theorem FromJson_parameters_failure (V : Validator) (value : Value)
    (dictionary : CommandDictionary) (error : ErrorPtr) (json : DictionaryValue)
    (command_name : String) (command_def : CommandDefinition)
    (hj : value.GetAsDictionary = some json)
    (hn : GetStringWithoutPathExpansion json kCommand_Name = some command_name)
    (hd : dictionary.FindCommand command_name = some command_def) :
    (∀ params_value, GetWithoutPathExpansion json kCommand_Parameters = some params_value →
        params_value.GetAsDictionary = none →
        FromJson V value dictionary error =
          (none,
            { domain := commands_kDomain, code := kCommandFailed,
              message := "Failed to validate command '" ++ command_name ++ "'" } ::
            { domain := json_kDomain, code := json_kObjectExpected,
              message := "Property '" ++ kCommand_Parameters ++ "' must be a JSON object" } ::
            error)) ∧
      (∀ params e,
        ((GetWithoutPathExpansion json kCommand_Parameters = none ∧ params = []) ∨
          ∃ params_value, GetWithoutPathExpansion json kCommand_Parameters = some params_value ∧
            params_value.GetAsDictionary = some params) →
        V params command_def.GetParameters = .error e →
        FromJson V value dictionary error =
          (none,
            { domain := commands_kDomain, code := kCommandFailed,
              message := "Failed to validate command '" ++ command_name ++ "'" } ::
            e :: error)) ∧
      FromJson TypedValueFromJson rebootDelayRequest rebootDictionary [] =
        (none,
          [{ domain := "command", code := "commandFailed",
             message := "Failed to validate command 'reboot'" },
           { domain := "command", code := "UnknownProperty", message := "delay" }]) := by
  refine ⟨?_, ?_, rfl⟩
  · intro pv hp hg
    rw [FromJson_known_command V value dictionary error json command_name command_def hj hn hd,
      GetCommandParameters_not_object V json command_def error pv hp hg]
    rfl
  · intro params e hor hv
    rw [FromJson_known_command V value dictionary error json command_name command_def hj hn hd]
    rcases hor with ⟨hp, rfl⟩ | ⟨pv, hp, hg⟩
    · rw [GetCommandParameters_absent V json command_def error hp, hv]
      rfl
    · rw [GetCommandParameters_object V json command_def error pv params hp hg, hv]
      rfl

theorem FromJson_parameters_failure_witness :
    FromJson TypedValueFromJson
        (Value.dictionary [("name", Value.string "reboot"), ("parameters", Value.integer 1)])
        rebootDictionary [] =
      (none,
        [{ domain := commands_kDomain, code := kCommandFailed,
           message := "Failed to validate command '" ++ "reboot" ++ "'" },
         { domain := json_kDomain, code := json_kObjectExpected,
           message := "Property '" ++ kCommand_Parameters ++ "' must be a JSON object" }]) :=
  (FromJson_parameters_failure TypedValueFromJson
    (Value.dictionary [("name", Value.string "reboot"), ("parameters", Value.integer 1)])
    rebootDictionary []
    [("name", Value.string "reboot"), ("parameters", Value.integer 1)] "reboot"
    { category_ := "system", parameters_ := [], results_ := [] } rfl rfl rfl).1
    (Value.integer 1) rfl rfl

/-! ### The D-Bus proxy -/

theorem DBusCommandProxy_ValidateValue_iff (p : Int) :
    (IntPropType.default.AddMinMaxConstraint 0 100).ValidateValue p =
      if 0 ≤ p ∧ p ≤ 100 then .ok () else .error (schemaError "ConstraintViolation" "") := by
  unfold IntPropType.ValidateValue IntPropType.AddMinMaxConstraint inRange
  by_cases h0 : 0 ≤ p <;> by_cases h1 : p ≤ 100 <;> simp [h0, h1]

/-- C14: `DBusCommandProxy::SetProgress` validates before applying.  For p
outside [0,100] it returns false, puts an error on the chain and leaves the
instance's world untouched; for p in [0,100] it applies
`CommandInstance::SetProgress(p)`, returns true and records no error.  So for
every p its return value is the one `CommandInstance::SetProgress(p)`
returns. -/
theorem DBusCommandProxy_SetProgress_validates (error : ErrorPtr) (p : Int) (w : World) :
    ((p < 0 ∨ p > 100) →
        ∃ e, DBusCommandProxy.SetProgress error p w = (false, e :: error, w)) ∧
      ((0 ≤ p ∧ p ≤ 100) →
        DBusCommandProxy.SetProgress error p w = (true, error, (SetProgress p w).2)) ∧
      (DBusCommandProxy.SetProgress error p w).1 = (SetProgress p w).1 := by
  have hv := DBusCommandProxy_ValidateValue_iff p
  refine ⟨?_, ?_, ?_⟩
  · intro h
    have hn : ¬ (0 ≤ p ∧ p ≤ 100) := by omega
    rw [if_neg hn] at hv
    refine ⟨schemaError "ConstraintViolation" "", ?_⟩
    unfold DBusCommandProxy.SetProgress
    simp only [hv]
  · intro h
    rw [if_pos h] at hv
    unfold DBusCommandProxy.SetProgress
    simp only [hv]
  · rw [SetProgress_fst]
    by_cases h : 0 ≤ p ∧ p ≤ 100
    · rw [if_pos h] at hv
      unfold DBusCommandProxy.SetProgress
      simp only [hv]
      exact (decide_eq_true h).symm
    · rw [if_neg h] at hv
      unfold DBusCommandProxy.SetProgress
      simp only [hv]
      exact (decide_eq_false h).symm

theorem DBusCommandProxy_SetProgress_validates_witness :
    (∃ e, DBusCommandProxy.SetProgress [] 101 sampleWorld = (false, e :: [], sampleWorld)) ∧
      DBusCommandProxy.SetProgress [] 41 sampleWorld =
        (true, [], (SetProgress 41 sampleWorld).2) :=
  ⟨(DBusCommandProxy_SetProgress_validates [] 101 sampleWorld).1 (by decide),
    (DBusCommandProxy_SetProgress_validates [] 41 sampleWorld).2.1 (by decide)⟩

/-- C15: when the results dictionary does not validate against the result
schema of the command's definition, `DBusCommandProxy::SetResults` returns
false with the validation error on top of the chain and leaves the instance's
world (results, status, progress, …) untouched; when it does validate, the
method returns true and `CommandInstance::SetResults` is run once, on the
object the validation produced.  So `SetResults` of the instance only ever
receives a validated object. -/
theorem DBusCommandProxy_SetResults_validates {VariantDictionary : Type}
    (ObjectFromDBusVariant : ObjectSchema → VariantDictionary → Except Error Object)
    (CommandInstance_SetResults : Object → World → World)
    (command_definition : CommandDefinition)
    (error : ErrorPtr) (results : VariantDictionary) (w : World) :
    (∀ e, ObjectFromDBusVariant command_definition.GetResults results = .error e →
        DBusCommandProxy.SetResults ObjectFromDBusVariant CommandInstance_SetResults
          command_definition error results w = (false, e :: error, w)) ∧
      (∀ obj, ObjectFromDBusVariant command_definition.GetResults results = .ok obj →
        DBusCommandProxy.SetResults ObjectFromDBusVariant CommandInstance_SetResults
          command_definition error results w =
            (true, error, CommandInstance_SetResults obj w)) := by
  constructor
  · intro e h
    unfold DBusCommandProxy.SetResults
    simp only [h]
  · intro obj h
    unfold DBusCommandProxy.SetResults
    simp only [h]

theorem DBusCommandProxy_SetResults_validates_witness :
    DBusCommandProxy.SetResults (fun schema d => TypedValueFromJson d schema) storeResults
        sampleDefinition [] [("code", Value.string "x")] sampleWorld =
      (false, [schemaError "TypeMismatch" "code"], sampleWorld) ∧
    DBusCommandProxy.SetResults (fun schema d => TypedValueFromJson d schema) storeResults
        sampleDefinition [] [("code", Value.integer 3)] sampleWorld =
      (true, [], storeResults [("code", PropValue.integer 3)] sampleWorld) :=
  ⟨(DBusCommandProxy_SetResults_validates (fun schema d => TypedValueFromJson d schema)
      storeResults sampleDefinition [] [("code", Value.string "x")] sampleWorld).1 _ rfl,
    (DBusCommandProxy_SetResults_validates (fun schema d => TypedValueFromJson d schema)
      storeResults sampleDefinition [] [("code", Value.integer 3)] sampleWorld).2 _ rfl⟩

/-! ### Notifications -/

/-- C17: with a proxy attached, each operation notifies once per change and
not at all for a no-op.  `SetStatus(s)` delivers `OnStatusChanged(s)` once
when s differs from the current status and nothing when it is equal.
`SetProgress(p)` with p in [0,100] different from the current progress
delivers one `OnProgressChanged(p)`, preceded by one
`OnStatusChanged("inProgress")` exactly when the status was not already
"inProgress"; with p equal to the current progress it delivers nothing. -/
theorem notifications_once_per_change (w : World) (hp : w.self.proxy_ = true)
    (s : String) (p : Int) :
    (s ≠ w.self.status_ →
        (SetStatus s w).calls = w.calls ++ [Notification.OnStatusChanged s]) ∧
      (s = w.self.status_ → (SetStatus s w).calls = w.calls) ∧
      (0 ≤ p → p ≤ 100 → p ≠ w.self.progress_ →
        (SetProgress p w).2.calls =
          w.calls ++
            (if w.self.status_ ≠ kStatusInProgress
              then [Notification.OnStatusChanged kStatusInProgress] else []) ++
            [Notification.OnProgressChanged p]) ∧
      (0 ≤ p → p ≤ 100 → p = w.self.progress_ → (SetProgress p w).2.calls = w.calls) := by
  refine ⟨?_, ?_, ?_, ?_⟩
  · intro hne
    rw [SetStatus_eq]
    simp [hne, hp]
  · intro he
    rw [SetStatus_eq]
    simp [he]
  · intro h0 h1 hne
    rw [SetProgress_new p w h0 h1 hne]
    by_cases hst : w.self.status_ = kStatusInProgress
    · simp [hp, hst]
    · have hst2 : ¬ kStatusInProgress = w.self.status_ := fun e => hst e.symm
      simp [hp, hst, hst2]
  · intro h0 h1 he
    rw [SetProgress_same p w h0 h1 he]

theorem notifications_once_per_change_witness :
    (SetStatus "paused" sampleWorld).calls =
        sampleWorld.calls ++ [Notification.OnStatusChanged "paused"] ∧
      (SetStatus "queued" sampleWorld).calls = sampleWorld.calls ∧
      (SetProgress 41 sampleWorld).2.calls =
        sampleWorld.calls ++
          (if sampleWorld.self.status_ ≠ kStatusInProgress
            then [Notification.OnStatusChanged kStatusInProgress] else []) ++
          [Notification.OnProgressChanged 41] ∧
      (SetProgress 0 sampleWorld).2.calls = sampleWorld.calls :=
  ⟨(notifications_once_per_change sampleWorld rfl "paused" 41).1 (by decide),
    (notifications_once_per_change sampleWorld rfl "queued" 41).2.1 rfl,
    (notifications_once_per_change sampleWorld rfl "paused" 41).2.2.1
      (by decide) (by decide) (by decide),
    (notifications_once_per_change sampleWorld rfl "paused" 0).2.2.2
      (by decide) (by decide) rfl⟩

/-! ### The recorded steps -/

theorem SetStatusT_eq (status : String) (t : Traced) :
    SetStatusT status t =
      { world := SetStatus status t.world,
        steps := t.steps ++
          (if status ≠ t.world.self.status_ then
            Step.write_status status ::
              (if t.world.self.proxy_ = true
                then [Step.call (Notification.OnStatusChanged status)] else [])
           else []) } := by
  obtain ⟨⟨⟨i, n, c, ps, rs, st, pr, px, qu⟩, q, cs⟩, ss⟩ := t
  rw [SetStatus_eq]
  unfold SetStatusT
  by_cases h : status = st
  · subst h; simp
  · cases px <;> simp [h]

theorem SetProgressT_new (p : Int) (t : Traced) (h0 : 0 ≤ p) (h1 : p ≤ 100)
    (hne : p ≠ t.world.self.progress_) :
    SetProgressT p t =
      (true,
        { world := (SetProgress p t.world).2,
          steps := t.steps ++ [Step.write_progress p] ++
            (if kStatusInProgress ≠ t.world.self.status_ then
              Step.write_status kStatusInProgress ::
                (if t.world.self.proxy_ = true
                  then [Step.call (Notification.OnStatusChanged kStatusInProgress)] else [])
             else []) ++
            (if t.world.self.proxy_ = true
              then [Step.call (Notification.OnProgressChanged p)] else []) }) := by
  obtain ⟨⟨⟨i, n, c, ps, rs, st, pr, px, qu⟩, q, cs⟩, ss⟩ := t
  rw [SetProgress_new p _ h0 h1 hne]
  unfold SetProgressT
  have h : ¬ (p < 0 ∨ p > 100) := by omega
  rw [if_neg h, if_pos hne]
  simp only [SetStatusT_eq, SetStatus_eq]
  cases px <;> simp

theorem SetProgressT_world (p : Int) (t : Traced) :
    (SetProgressT p t).1 = (SetProgress p t.world).1 ∧
      (SetProgressT p t).2.world = (SetProgress p t.world).2 := by
  by_cases h : p < 0 ∨ p > 100
  · rw [SetProgress_out_of_range_aux t.world p h]
    unfold SetProgressT
    rw [if_pos h]
    exact ⟨rfl, rfl⟩
  · have h0 : 0 ≤ p := by omega
    have h1 : p ≤ 100 := by omega
    by_cases hne : p = t.world.self.progress_
    · rw [SetProgress_same p t.world h0 h1 hne]
      unfold SetProgressT
      rw [if_neg h, if_neg (not_not.mpr hne)]
      exact ⟨rfl, rfl⟩
    · rw [SetProgressT_new p t h0 h1 hne]
      refine ⟨?_, rfl⟩
      rw [SetProgress_new p t.world h0 h1 hne]

/-- C18, as stated, fails: `SetProgress(41)` on a queued instance with
progress 0 and a proxy attached writes `progress_` first and `status_`
second, but delivers `OnStatusChanged("inProgress")` first and
`OnProgressChanged(41)` second. -/
theorem SetProgress_notifies_in_reverse_order :
    sampleWorld.self.proxy_ = true ∧
      (SetProgressT 41 ⟨sampleWorld, []⟩).2.steps =
        [Step.write_progress 41, Step.write_status "inProgress",
         Step.call (Notification.OnStatusChanged "inProgress"),
         Step.call (Notification.OnProgressChanged 41)] ∧
      mutationOrder (SetProgressT 41 ⟨sampleWorld, []⟩).2.steps =
        [Field.progress, Field.status] ∧
      notificationOrder (SetProgressT 41 ⟨sampleWorld, []⟩).2.steps =
        [Field.status, Field.progress] ∧
      notificationOrder (SetProgressT 41 ⟨sampleWorld, []⟩).2.steps ≠
        mutationOrder (SetProgressT 41 ⟨sampleWorld, []⟩).2.steps := by
  decide

/-- C18, amended: with a proxy attached, every notification is delivered
after the write that caused it and carries the value written.  `SetStatus(s)`
with a new s writes `status_` and then delivers `OnStatusChanged(s)`.
`SetProgress(p)` with a new p in [0,100] writes `progress_`, then (when the
status was not already "inProgress") writes `status_` and delivers
`OnStatusChanged("inProgress")`, and delivers `OnProgressChanged(p)` last: when
both members change, the status notification comes before the progress
notification although progress was written first.  The recorded methods leave
the same world and return value as the plain ones. -/
theorem steps_of_setters (t : Traced) (hp : t.world.self.proxy_ = true)
    (s : String) (p : Int) :
    (SetStatusT s t).world = SetStatus s t.world ∧
      (SetProgressT p t).1 = (SetProgress p t.world).1 ∧
      (SetProgressT p t).2.world = (SetProgress p t.world).2 ∧
      (s ≠ t.world.self.status_ →
        (SetStatusT s t).steps =
          t.steps ++ [Step.write_status s, Step.call (Notification.OnStatusChanged s)]) ∧
      (0 ≤ p → p ≤ 100 → p ≠ t.world.self.progress_ →
        (SetProgressT p t).2.steps =
          t.steps ++ [Step.write_progress p] ++
            (if t.world.self.status_ ≠ kStatusInProgress then
              [Step.write_status kStatusInProgress,
               Step.call (Notification.OnStatusChanged kStatusInProgress)]
             else []) ++
            [Step.call (Notification.OnProgressChanged p)]) := by
  refine ⟨?_, (SetProgressT_world p t).1, (SetProgressT_world p t).2, ?_, ?_⟩
  · rw [SetStatusT_eq]
  · intro hne
    rw [SetStatusT_eq]
    simp [hne, hp]
  · intro h0 h1 hne
    rw [SetProgressT_new p t h0 h1 hne]
    by_cases hst : t.world.self.status_ = kStatusInProgress
    · simp [hp, hst]
    · have hst2 : ¬ kStatusInProgress = t.world.self.status_ := fun e => hst e.symm
      simp [hp, hst, hst2]

theorem steps_of_setters_witness :
    (SetStatusT "paused" ⟨sampleWorld, []⟩).steps =
        [] ++ [Step.write_status "paused",
          Step.call (Notification.OnStatusChanged "paused")] ∧
      (SetProgressT 41 ⟨sampleWorld, []⟩).2.steps =
        [] ++ [Step.write_progress 41] ++
          (if sampleWorld.self.status_ ≠ kStatusInProgress then
            [Step.write_status kStatusInProgress,
             Step.call (Notification.OnStatusChanged kStatusInProgress)]
           else []) ++
          [Step.call (Notification.OnProgressChanged 41)] :=
  ⟨(steps_of_setters ⟨sampleWorld, []⟩ rfl "paused" 41).2.2.2.1 (by decide),
    (steps_of_setters ⟨sampleWorld, []⟩ rfl "paused" 41).2.2.2.2
      (by decide) (by decide) (by decide)⟩

/-! ### Reachable states -/

theorem Abort_self (w : World) : (Abort w).self = { w.self with status_ := kStatusAborted } := by
  unfold Abort
  rw [RemoveFromQueue_eq, SetStatus_eq]

theorem Cancel_self (w : World) :
    (Cancel w).self = { w.self with status_ := kStatusCanceled } := by
  unfold Cancel
  rw [RemoveFromQueue_eq, SetStatus_eq]

theorem Done_progress (w : World) : (Done w).self.progress_ = 100 := by
  unfold Done
  rw [RemoveFromQueue_eq, SetStatus_eq]
  by_cases hne : (100 : Int) = w.self.progress_
  · rw [SetProgress_same 100 w (by decide) (by decide) hne]; exact hne.symm
  · rw [SetProgress_new 100 w (by decide) (by decide) hne]

theorem SetProgress_progress_in_range (p : Int) (w : World)
    (h : 0 ≤ w.self.progress_ ∧ w.self.progress_ ≤ 100) :
    0 ≤ (SetProgress p w).2.self.progress_ ∧ (SetProgress p w).2.self.progress_ ≤ 100 := by
  by_cases hr : p < 0 ∨ p > 100
  · rw [SetProgress_out_of_range_aux w p hr]; exact h
  · have h0 : 0 ≤ p := by omega
    have h1 : p ≤ 100 := by omega
    by_cases hne : p = w.self.progress_
    · rw [SetProgress_same p w h0 h1 hne]; exact h
    · rw [SetProgress_new p w h0 h1 hne]; exact ⟨h0, h1⟩

theorem invoke_progress_in_range (c : Call) (w : World)
    (h : 0 ≤ w.self.progress_ ∧ w.self.progress_ ≤ 100) :
    0 ≤ (c.invoke w).2.self.progress_ ∧ (c.invoke w).2.self.progress_ ≤ 100 := by
  cases c with
  | SetProgress p => exact SetProgress_progress_in_range p w h
  | Abort =>
    show 0 ≤ (Abort w).self.progress_ ∧ (Abort w).self.progress_ ≤ 100
    rw [Abort_self]; exact h
  | Cancel =>
    show 0 ≤ (Cancel w).self.progress_ ∧ (Cancel w).self.progress_ ≤ 100
    rw [Cancel_self]; exact h
  | Done =>
    show 0 ≤ (Done w).self.progress_ ∧ (Done w).self.progress_ ≤ 100
    rw [Done_progress]; decide

theorem runCalls_progress_in_range (cs : List Call) (w : World)
    (h : 0 ≤ w.self.progress_ ∧ w.self.progress_ ≤ 100) :
    0 ≤ (runCalls cs w).self.progress_ ∧ (runCalls cs w).self.progress_ ≤ 100 := by
  induction cs generalizing w with
  | nil => exact h
  | cons c cs ih => exact ih (c.invoke w).2 (invoke_progress_in_range c w h)

/-- C19: from an instance created with progress 0 and status "queued", after
any finite sequence of calls of `SetProgress` (any integer argument),
`Abort`, `Cancel` and `Done`, the progress p satisfies 0 ≤ p ≤ 100. -/
theorem progress_stays_in_range (cs : List Call) (w : World)
    (hprog : w.self.progress_ = 0) (_hstat : w.self.status_ = kStatusQueued) :
    0 ≤ (runCalls cs w).self.progress_ ∧ (runCalls cs w).self.progress_ ≤ 100 := by
  apply runCalls_progress_in_range
  rw [hprog]
  decide

theorem progress_stays_in_range_witness :
    0 ≤ (runCalls [Call.SetProgress 250, Call.SetProgress 30, Call.SetProgress (-4),
          Call.Cancel, Call.SetProgress 101, Call.Done, Call.Abort] sampleWorld).self.progress_ ∧
      (runCalls [Call.SetProgress 250, Call.SetProgress 30, Call.SetProgress (-4),
          Call.Cancel, Call.SetProgress 101, Call.Done, Call.Abort] sampleWorld).self.progress_
        ≤ 100 :=
  progress_stays_in_range _ sampleWorld rfl rfl

/-! ### Absent proxy -/

theorem SetProgress_withoutProxy (p : Int) (w : World) :
    (SetProgress p (withoutProxy w)).1 = (SetProgress p w).1 ∧
      (SetProgress p (withoutProxy w)).2.self.status_ = (SetProgress p w).2.self.status_ ∧
      (SetProgress p (withoutProxy w)).2.self.progress_ = (SetProgress p w).2.self.progress_ ∧
      (SetProgress p (withoutProxy w)).2.queue = (SetProgress p w).2.queue ∧
      (SetProgress p (withoutProxy w)).2.calls = w.calls := by
  by_cases hr : p < 0 ∨ p > 100
  · rw [SetProgress_out_of_range_aux w p hr, SetProgress_out_of_range_aux (withoutProxy w) p hr]
    exact ⟨rfl, rfl, rfl, rfl, rfl⟩
  · have h0 : 0 ≤ p := by omega
    have h1 : p ≤ 100 := by omega
    by_cases hne : p = w.self.progress_
    · rw [SetProgress_same p w h0 h1 hne, SetProgress_same p (withoutProxy w) h0 h1 hne]
      exact ⟨rfl, rfl, rfl, rfl, rfl⟩
    · rw [SetProgress_new p w h0 h1 hne, SetProgress_new p (withoutProxy w) h0 h1 hne]
      refine ⟨rfl, rfl, rfl, rfl, ?_⟩
      simp [withoutProxy]

theorem terminal_withoutProxy (status : String) (w : World) :
    (RemoveFromQueue (SetStatus status (withoutProxy w))).self.status_ =
        (RemoveFromQueue (SetStatus status w)).self.status_ ∧
      (RemoveFromQueue (SetStatus status (withoutProxy w))).self.progress_ =
        (RemoveFromQueue (SetStatus status w)).self.progress_ ∧
      (RemoveFromQueue (SetStatus status (withoutProxy w))).queue =
        (RemoveFromQueue (SetStatus status w)).queue ∧
      (RemoveFromQueue (SetStatus status (withoutProxy w))).calls = w.calls := by
  refine ⟨?_, ?_, ?_, ?_⟩ <;> simp [RemoveFromQueue_eq, SetStatus_eq, withoutProxy]

/-- C20: an absent proxy is tolerated and does not influence the state.  For
every world and each of `SetProgress(p)`, `Abort()`, `Cancel()`, `Done()`, the
value returned and the resulting status and progress (and queue) are the same
with the proxy detached as with whatever proxy state the world has, and with
the proxy detached the call delivers no notification. -/
theorem absent_proxy_is_tolerated (c : Call) (w : World) :
    (c.invoke (withoutProxy w)).1 = (c.invoke w).1 ∧
      (c.invoke (withoutProxy w)).2.self.status_ = (c.invoke w).2.self.status_ ∧
      (c.invoke (withoutProxy w)).2.self.progress_ = (c.invoke w).2.self.progress_ ∧
      (c.invoke (withoutProxy w)).2.queue = (c.invoke w).2.queue ∧
      (c.invoke (withoutProxy w)).2.calls = w.calls := by
  cases c with
  | SetProgress p =>
    obtain ⟨h1, h2, h3, h4, h5⟩ := SetProgress_withoutProxy p w
    exact ⟨congrArg some h1, h2, h3, h4, h5⟩
  | Abort =>
    obtain ⟨h2, h3, h4, h5⟩ := terminal_withoutProxy kStatusAborted w
    exact ⟨rfl, h2, h3, h4, h5⟩
  | Cancel =>
    obtain ⟨h2, h3, h4, h5⟩ := terminal_withoutProxy kStatusCanceled w
    exact ⟨rfl, h2, h3, h4, h5⟩
  | Done =>
    have hsp := SetProgress_withoutProxy 100 w
    show none = none ∧ (Done (withoutProxy w)).self.status_ = (Done w).self.status_ ∧
      (Done (withoutProxy w)).self.progress_ = (Done w).self.progress_ ∧
      (Done (withoutProxy w)).queue = (Done w).queue ∧
      (Done (withoutProxy w)).calls = w.calls
    refine ⟨rfl, ?_, ?_, ?_, ?_⟩
    · unfold Done
      simp only [RemoveFromQueue_eq, SetStatus_eq]
    · rw [Done_progress, Done_progress]
    · have hq1 : (Done (withoutProxy w)).queue = _ :=
        TerminalCall_run_queue TerminalCall.done (withoutProxy w)
      have hq2 : (Done w).queue = _ := TerminalCall_run_queue TerminalCall.done w
      rw [hq1, hq2]
      rfl
    · unfold Done
      simp only [RemoveFromQueue_eq, SetStatus_eq]
      have hpx : (SetProgress 100 (withoutProxy w)).2.self.proxy_ = false := by
        by_cases hne : (100 : Int) = w.self.progress_
        · rw [SetProgress_same 100 (withoutProxy w) (by decide) (by decide) hne]; rfl
        · rw [SetProgress_new 100 (withoutProxy w) (by decide) (by decide) hne]; rfl
      rw [hsp.2.2.2.2, hpx]
      simp

end buffet
